import Mathlib

/-!
Verification development for the litmus repository.

Shallow embedding of the core pure logic of the source tree:
* `src/loop/circuit-breaker.ts` — iteration-history stop detector,
* `src/runner/executor.ts` — scenario execution loop, selector
  classification, assert-action semantics,
* `src/runner/scenario-runner.ts` — per-scenario isolation loop and
  summary aggregation,
* `src/scenarios/writer.ts` and `src/scenarios/parser.ts` — scenario
  file round trip.

Machine integers of the source are JavaScript numbers used only as
counts and indices; they are modelled as `Nat`.  Asynchronous browser
calls are modelled as explicit oracle parameters recording what each
call would return.
-/

namespace Litmus

/-! ## Circuit breaker (`src/loop/circuit-breaker.ts`) -/

/-- `IterationRecord` from `circuit-breaker.ts`: one entry of the
circuit breaker's append-only history.  `failingScenarios` keeps the
order in which the runner listed failing results, as the source stores
a JavaScript array. -/
structure IterationRecord where
  iteration : Nat
  passed : Nat
  failed : Nat
  failingScenarios : List String
  deriving Repr, DecidableEq

/-- The three stop conditions of `CircuitBreaker.shouldStop`, with the
numbers that the source interpolates into its message strings. -/
inductive StopReason where
  | noProgress (count : Nat) (window : Nat)
  | regression (current : Nat) (previous : Nat) (best : Nat)
  | oscillation
  deriving Repr, DecidableEq

/-- The message string the source returns for each stop reason. -/
def StopReason.message : StopReason → String
  | .noProgress c w =>
      s!"No progress: {c} scenarios have been failing for {w} consecutive iterations."
  | .regression cur prev best =>
      s!"Regression detected: {cur} failures (was {prev}, best was {best}). The coding agent may be making things worse."
  | .oscillation =>
      "Oscillation detected: the coding agent is alternating between two states. It may be fixing one scenario while breaking another."

/-- JavaScript `array.slice(-n)`: the last `n` elements (the whole
array when `n = 0`, since `slice(-0)` is `slice(0)`). -/
def sliceLast (n : Nat) (l : List α) : List α :=
  if n = 0 then l else l.drop (l.length - n)

/-- Minimum failure count over the history:
`Math.min(...history.map((r) => r.failed))`.  The empty case is
unreachable under `shouldStop`'s length guard (JavaScript would give
`Infinity` there). -/
def minFailed (history : List IterationRecord) : Nat :=
  match history.map (·.failed) with
  | [] => 0
  | f :: fs => fs.foldl min f

/-- First check of `shouldStop` (lines 39-47): same nonzero failure
count over the most recent `maxStagnantIterations` iterations, once
that many have accumulated. -/
def stagnationCheck (maxStagnantIterations : Nat)
    (history : List IterationRecord) : Option StopReason :=
  let recent := sliceLast maxStagnantIterations history
  if recent.length ≥ maxStagnantIterations then
    match recent.map (·.failed) with
    | [] => none
    | c :: cs =>
      if cs.all (· = c) ∧ c > 0 then
        some (.noProgress c maxStagnantIterations)
      else none
  else none

/-- Second check of `shouldStop` (lines 49-58): the current failure
count exceeds the previous one and exceeds the best count ever seen by
more than 3.  `current` is `history[length-1]`, `previous` is
`history[length-2]`; both exist under the length-3 guard, so they are
read off the two-element tail. -/
def regressionCheck (history : List IterationRecord) : Option StopReason :=
  match sliceLast 2 history with
  | [previous, current] =>
    if current.failed > previous.failed ∧
        current.failed > minFailed history + 3 then
      some (.regression current.failed previous.failed (minFailed history))
    else none
  | _ => none

/-- Third check of `shouldStop` (lines 60-71): over the last four
records A,B,C,D, the failing-scenario lists satisfy A = C, B = D and
A ≠ B.  The source compares `JSON.stringify` of the stored arrays;
on arrays of strings that string equality coincides with list
equality, which is what is used here. -/
def oscillationCheck (history : List IterationRecord) : Option StopReason :=
  if history.length ≥ 4 then
    match sliceLast 4 history with
    | [a, b, c, d] =>
      if a.failingScenarios = c.failingScenarios ∧
          b.failingScenarios = d.failingScenarios ∧
          a.failingScenarios ≠ b.failingScenarios then
        some .oscillation
      else none
    | _ => none
  else none

/-- `CircuitBreaker.shouldStop`: `none` with fewer than 3 records,
otherwise the three checks in order, first match wins. -/
def shouldStop (maxStagnantIterations : Nat)
    (history : List IterationRecord) : Option StopReason :=
  if history.length < 3 then none
  else
    match stagnationCheck maxStagnantIterations history with
    | some r => some r
    | none =>
      match regressionCheck history with
      | some r => some r
      | none =>
        match oscillationCheck history with
        | some r => some r
        | none => none

/-- Whether a `shouldStop` outcome is the "no progress" reason. -/
def isNoProgress : Option StopReason → Bool
  | some (.noProgress _ _) => true
  | _ => false

/-- Whether a `shouldStop` outcome is the "regression" reason. -/
def isRegression : Option StopReason → Bool
  | some (.regression _ _ _) => true
  | _ => false

/-- Replace the element at a given position by applying `f` to it
(identity beyond the end of the list).  Used to state "changing one
record of the history". -/
def modifyAt (f : α → α) : Nat → List α → List α
  | _, [] => []
  | 0, x :: xs => f x :: xs
  | n + 1, x :: xs => x :: modifyAt f n xs

/-- Concrete history for the stagnation witness: two varying records
followed by five records all failing 3 scenarios. -/
def stagnationExample : List IterationRecord :=
  [⟨1, 0, 7, ["x"]⟩, ⟨2, 0, 6, ["y"]⟩, ⟨3, 0, 3, ["a"]⟩, ⟨4, 0, 3, ["a"]⟩,
    ⟨5, 0, 3, ["a"]⟩, ⟨6, 0, 3, ["a"]⟩, ⟨7, 0, 3, ["a"]⟩]

/-- History with failure counts [10,6,4,4,9]: regression example of the
spec that should trigger the signal. -/
def regressionExampleA : List IterationRecord :=
  [⟨1, 0, 10, ["s1"]⟩, ⟨2, 0, 6, ["s2"]⟩, ⟨3, 0, 4, ["s3"]⟩,
    ⟨4, 0, 4, ["s4"]⟩, ⟨5, 0, 9, ["s5"]⟩]

/-- History with failure counts [10,6,4,4,7]: regression example of the
spec that should stay silent. -/
def regressionExampleB : List IterationRecord :=
  [⟨1, 0, 10, ["s1"]⟩, ⟨2, 0, 6, ["s2"]⟩, ⟨3, 0, 4, ["s3"]⟩,
    ⟨4, 0, 4, ["s4"]⟩, ⟨5, 0, 7, ["s5"]⟩]

/-- Failing-set sequence [{a},{b},{a},{b}]: oscillation example of the
spec that should trigger the signal. -/
def oscillationExampleA : List IterationRecord :=
  [⟨1, 0, 1, ["a"]⟩, ⟨2, 0, 1, ["b"]⟩, ⟨3, 0, 1, ["a"]⟩, ⟨4, 0, 1, ["b"]⟩]

/-- Failing-set sequence [{a},{b},{c},{b}]: oscillation example of the
spec that should stay silent. -/
def oscillationExampleB : List IterationRecord :=
  [⟨1, 0, 1, ["a"]⟩, ⟨2, 0, 1, ["b"]⟩, ⟨3, 0, 1, ["c"]⟩, ⟨4, 0, 1, ["b"]⟩]

/-- History whose last four failing-scenario identifier SETS satisfy
the oscillation pattern (A and C hold the same identifiers in
different order) while the stored lists differ. -/
def oscillationSetCex : List IterationRecord :=
  [⟨1, 0, 2, ["a", "b"]⟩, ⟨2, 0, 1, ["b"]⟩, ⟨3, 0, 2, ["b", "a"]⟩,
    ⟨4, 0, 1, ["b"]⟩]

/-! ## Scenario data model (`src/scenarios/types.ts`) -/

/-- `ScenarioMetadata`: the source constrains the fields to the string
literals priority ∈ {high, medium, low}, type ∈ {happy-path,
edge-case, failure-mode, infrastructure}, confidence ∈ {direct,
expanded, inferred}; they are carried here as plain strings. -/
structure ScenarioMetadata where
  priority : String
  type : String
  confidence : String
  deriving Repr, DecidableEq

/-- `Scenario` from `types.ts`. -/
structure Scenario where
  name : String
  category : String
  filePath : String
  context : List String
  steps : List String
  expected : List String
  metadata : ScenarioMetadata
  raw : String
  deriving Repr, DecidableEq

/-- `StepResult` from `types.ts` (step index is 1-based). -/
structure StepResult where
  step : Nat
  description : String
  passed : Bool
  error : Option String := none
  screenshotPath : Option String := none
  deriving Repr, DecidableEq

/-- `VerificationResult` from `types.ts`. -/
structure VerificationResult where
  scenario : Scenario
  passed : Bool
  stepResults : List StepResult
  failedStep : Option Nat := none
  expected : Option String := none
  actual : Option String := none
  screenshotPath : Option String := none
  consoleLogs : List String
  duration : Nat
  deriving Repr, DecidableEq

/-- `VerificationSummary` from `types.ts`. -/
structure VerificationSummary where
  total : Nat
  passed : Nat
  failed : Nat
  results : List VerificationResult
  duration : Nat
  deriving Repr, DecidableEq

/-! ## Scenario runner (`src/runner/scenario-runner.ts`)

The per-scenario loop of `runAllScenarios` awaits
`translateScenario` then `executeScenario`; both may throw.  That
combined call is modelled by an `Except String VerificationResult`
paired with each scenario: `.ok r` when the calls return `r`,
`.error e` when either throws with message `e`. -/

/-- The failed result the catch branch of the loop constructs
(scenario-runner lines 113-121). -/
def failedResult (scenario : Scenario) (errorMsg : String) :
    VerificationResult :=
  { scenario := scenario
    passed := false
    stepResults := []
    consoleLogs := []
    actual := some errorMsg
    duration := 0 }

/-- One iteration of the loop body: push the returned result, or
convert a thrown error into a failed result. -/
def resultOf (sr : Scenario × Except String VerificationResult) :
    VerificationResult :=
  match sr.2 with
  | .ok r => r
  | .error e => failedResult sr.1 e

/-- The per-scenario loop of `runAllScenarios` (lines 91-125). -/
def runScenarioLoop
    (runs : List (Scenario × Except String VerificationResult)) :
    List VerificationResult :=
  runs.map resultOf

/-- The summary aggregation of `runAllScenarios` (lines 130-136). -/
def summarize (results : List VerificationResult) (duration : Nat) :
    VerificationSummary :=
  { total := results.length
    passed := (results.filter (·.passed)).length
    failed := (results.filter (fun r => !r.passed)).length
    results := results
    duration := duration }

/-- `runAllScenarios` after the scenarios are loaded, filtered and the
server is ready: run every scenario and aggregate. -/
def runAllScenariosModel
    (runs : List (Scenario × Except String VerificationResult))
    (duration : Nat) : VerificationSummary :=
  summarize (runScenarioLoop runs) duration

/-- A minimal scenario used by concrete runner inputs. -/
def mkScenario (name category filePath : String) : Scenario :=
  { name := name
    category := category
    filePath := filePath
    context := ["ctx"]
    steps := ["step"]
    expected := ["exp"]
    metadata := ⟨"medium", "happy-path", "direct"⟩
    raw := "" }

/-- The middle scenario of the concrete three-scenario run. -/
def witnessScenarioB : Scenario := mkScenario "B" "general" "scenarios/b.md"

/-- A passing result for a given scenario. -/
def passingResult (sc : Scenario) : VerificationResult :=
  { scenario := sc
    passed := true
    stepResults := [⟨1, "step", true, none, none⟩]
    consoleLogs := []
    duration := 5 }

/-- Concrete three-scenario run whose middle scenario throws during
translation while the other two succeed. -/
def witnessRuns : List (Scenario × Except String VerificationResult) :=
  [(mkScenario "A" "general" "scenarios/a.md",
      .ok (passingResult (mkScenario "A" "general" "scenarios/a.md"))),
    (witnessScenarioB, .error "TranslationError: not JSON"),
    (mkScenario "C" "general" "scenarios/c.md",
      .ok (passingResult (mkScenario "C" "general" "scenarios/c.md")))]

/-! ## Action executor (`src/runner/executor.ts`)

Browser calls are modelled by oracles: each call site carries a
parameter recording what the call would return (or throw). -/

/-- The action vocabulary of `PlaywrightAction` in `translator.ts`. -/
inductive ActionType where
  | navigate | click | fill | select | wait | assert | keyboard
  deriving Repr, DecidableEq

/-- `PlaywrightAction` from `translator.ts`. -/
structure PlaywrightAction where
  type : ActionType
  selector : Option String := none
  value : Option String := none
  url : Option String := none
  key : Option String := none
  description : String
  deriving Repr, DecidableEq

/-- Outcome of one `executeAction` call inside the step loop: normal
return, or a thrown error carrying its message. -/
inductive ActionOutcome where
  | ok
  | err (msg : String)
  deriving Repr, DecidableEq

/-- `ExecutorOptions` from `executor.ts`. -/
structure ExecutorOptions where
  baseUrl : String
  headed : Bool := false
  screenshotDir : String
  timeout : Option Nat := none
  deriving Repr, DecidableEq

/-- JavaScript `String.prototype.includes` on character lists. -/
def charsIncludes (needle : List Char) : List Char → Bool
  | [] => needle.isPrefixOf []
  | c :: rest => needle.isPrefixOf (c :: rest) || charsIncludes needle rest

/-- JavaScript `hay.includes(needle)`. -/
def strIncludes (hay needle : String) : Bool :=
  charsIncludes needle.data hay.data

/-- The console-log filter applied when a result is assembled
(executor lines 195-197 and 209-211). -/
def failLogFilter (logs : List String) : List String :=
  logs.filter fun l => strIncludes l "[error]" || strIncludes l "[warning]"

/-- Characters kept verbatim by `slugify` (lowercase ASCII letters and
digits). -/
def isSlugChar (c : Char) : Bool :=
  (decide ('a' ≤ c) && decide (c ≤ 'z')) ||
    (decide ('0' ≤ c) && decide (c ≤ '9'))

/-- Collapse each run of dashes to a single dash, mirroring that
`replace(/[^a-z0-9]+/g, "-")` maps a whole run of non-alphanumerics
to one dash.  `prevDash` records whether the previously emitted
character was a dash of the current run. -/
def collapseDashes (prevDash : Bool) : List Char → List Char
  | [] => []
  | c :: rest =>
    if c = '-' then
      if prevDash then collapseDashes true rest
      else '-' :: collapseDashes true rest
    else c :: collapseDashes false rest

/-- `slugify` from `executor.ts`: lower-case, replace runs of
non-alphanumerics by a dash, strip one leading and one trailing dash
(all `/^-|-$/g` can match). -/
def slugify (text : String) : String :=
  let lowered := text.data.map Char.toLower
  let dashed :=
    collapseDashes false (lowered.map fun c => if isSlugChar c then c else '-')
  let noLead := match dashed with
    | '-' :: r => r
    | r => r
  let noTrail := match noLead.reverse with
    | '-' :: r => r.reverse
    | _ => noLead
  ⟨noTrail⟩

/-- Screenshot path for a failing step (executor lines 173-174):
`join(screenshotDir, slugify(name)-step(i).png)` with the 1-based step
number. -/
def screenshotName (scenario : Scenario) (options : ExecutorOptions)
    (step : Nat) : String :=
  options.screenshotDir ++ "/" ++ slugify scenario.name ++ "-step" ++
    toString step ++ ".png"

/-- Result of a modelled `executeScenario` run: the
`VerificationResult` the source returns plus the trace of the 1-based
step numbers whose actions were attempted (each loop iteration
consults `executeAction` exactly once). -/
structure ExecTrace where
  result : VerificationResult
  attempted : List Nat
  deriving Repr, DecidableEq

/-- The `for` loop of `executeScenario` (executor lines 156-203).
`shot` tells whether the best-effort screenshot capture succeeds at a
given step; `i` is the 0-based loop index; `acc` the step results so
far, `att` the attempted step numbers so far. -/
def execSteps (scenario : Scenario) (options : ExecutorOptions)
    (shot : Nat → Bool) (consoleLogs : List String) (duration : Nat) :
    Nat → List StepResult → List Nat →
    List (PlaywrightAction × ActionOutcome) → ExecTrace
  | _, acc, att, [] =>
    { result :=
        { scenario := scenario
          passed := true
          stepResults := acc
          consoleLogs := failLogFilter consoleLogs
          duration := duration }
      attempted := att }
  | i, acc, att, (action, outcome) :: rest =>
    match outcome with
    | .ok =>
      execSteps scenario options shot consoleLogs duration (i + 1)
        (acc ++ [⟨i + 1, action.description, true, none, none⟩])
        (att ++ [i + 1]) rest
    | .err msg =>
      let sp := if shot (i + 1) then some (screenshotName scenario options (i + 1))
        else none
      { result :=
          { scenario := scenario
            passed := false
            stepResults := acc ++
              [⟨i + 1, action.description, false, some msg, sp⟩]
            failedStep := some (i + 1)
            expected := some action.description
            actual := some msg
            screenshotPath := sp
            consoleLogs := failLogFilter consoleLogs
            duration := duration }
        attempted := att ++ [i + 1] }

/-- `executeScenario` (executor lines 127-219): run the action list
from the start with empty accumulators.  Each action is paired with
the outcome its `executeAction` call would have. -/
def executeScenario (scenario : Scenario)
    (actions : List (PlaywrightAction × ActionOutcome))
    (options : ExecutorOptions) (shot : Nat → Bool)
    (consoleLogs : List String) (duration : Nat) : ExecTrace :=
  execSteps scenario options shot consoleLogs duration 0 [] [] actions

/-- A click action used by concrete executor inputs. -/
def clickAction (desc : String) : PlaywrightAction :=
  { type := .click, selector := some "role=button", description := desc }

/-- Concrete executor options used by witnesses. -/
def witnessOptions : ExecutorOptions :=
  { baseUrl := "http://localhost:3000", screenshotDir := ".litmus/failures" }

/-- Concrete action list whose third action is the first to fail. -/
def witnessActions : List (PlaywrightAction × ActionOutcome) :=
  [(clickAction "step one", .ok), (clickAction "step two", .ok),
    (clickAction "step three", .err "element not found"),
    (clickAction "step four", .ok)]

/-! ## Selector resolution (`resolveLocator`, executor lines 387-445)

Each regular-expression guard of the source's if-chain is embedded as
an explicit character-list function; the comments give the regex it
implements.  A `.` in those regexes matches any character except a
line terminator. -/

/-- `startsWith` on the character lists of the strings (JavaScript
`String.prototype.startsWith`). -/
def strStartsWith (s pre : String) : Bool :=
  pre.data.isPrefixOf s.data

/-- `s.slice(n)` counted in characters. -/
def strDropChars (s : String) (n : Nat) : String :=
  ⟨s.data.drop n⟩

/-- `\w` of JavaScript regexes: ASCII letters, digits, underscore. -/
def isWordChar (c : Char) : Bool :=
  c.isAlpha || c.isDigit || c = '_'

/-- The regex flag characters `[gimsuy]`. -/
def isFlagChar (c : Char) : Bool :=
  c = 'g' || c = 'i' || c = 'm' || c = 's' || c = 'u' || c = 'y'

/-- What `.` matches in a JavaScript regex without the `s` flag:
anything but a line terminator. -/
def isDotChar (c : Char) : Bool :=
  !(c = '\n' || c = '\r' || c.toNat = 0x2028 || c.toNat = 0x2029)

/-- A quote character accepted by the role-name patterns. -/
def isQuoteChar (c : Char) : Bool :=
  c = '\'' || c = '"'

/-- The fixed role alternation of the bracketed role pattern, in the
source's order. -/
def roleNames : List String :=
  ["button", "link", "textbox", "checkbox", "radio", "heading", "img",
    "dialog", "alert", "navigation", "main", "form", "region", "list",
    "listitem", "table", "row", "cell", "option", "combobox", "menu",
    "menuitem"]

/-- Match `\[name=['"](.+?)['"]\]` against an entire character list,
returning the captured name.  Anchored at both ends, so the lazy
capture is forced: it spans from after the opening quote to before
the closing quote and bracket. -/
def nameSuffixParts (l : List Char) : Option String :=
  if "[name=".data.isPrefixOf l then
    match l.drop 6 with
    | q1 :: rest =>
      if isQuoteChar q1 then
        match rest.reverse with
        | ']' :: q2 :: bodyRev =>
          if isQuoteChar q2 && !bodyRev.isEmpty && bodyRev.all isDotChar then
            some ⟨bodyRev.reverse⟩
          else none
        | _ => none
      else none
    | [] => none
  else none

/-- Match `^role=(\w+)(?:\[name=['"](.+?)['"]\])?$`, returning the
role and the optional name. -/
def roleShorthandParts (s : String) : Option (String × Option String) :=
  if "role=".data.isPrefixOf s.data then
    let rest := s.data.drop 5
    let w := rest.takeWhile isWordChar
    let tail := rest.dropWhile isWordChar
    if w.isEmpty then none
    else if tail.isEmpty then some (⟨w⟩, none)
    else
      match nameSuffixParts tail with
      | some nm => some (⟨w⟩, some nm)
      | none => none
  else none

/-- Match `^(button|link|...|menuitem)\[name=['"](.+?)['"]\]$`,
returning the role and the name.  At most one alternative can match
the whole string, so first-match over the alternation order is the
plain existence of a matching role. -/
def bracketRoleParts (s : String) : Option (String × String) :=
  roleNames.findSome? fun r =>
    if (r ++ "[name=").data.isPrefixOf s.data then
      (nameSuffixParts (s.data.drop r.length)).map fun nm => (r, nm)
    else none

/-- Match `^\/(.+?)\/([gimsuy]*)$`, returning pattern and flags.  The
flags suffix cannot contain `/`, so the split point is the last `/`
that is followed only by flag characters; the lazy body takes the
shortest pattern, i.e. the longest flags run. -/
def regexParts (s : String) : Option (String × String) :=
  match s.data with
  | '/' :: rest =>
    let rev := rest.reverse
    let fl := rev.takeWhile isFlagChar
    match rev.drop fl.length with
    | '/' :: bodyRev =>
      if !bodyRev.isEmpty && bodyRev.all isDotChar then
        some (⟨bodyRev.reverse⟩, ⟨fl.reverse⟩)
      else none
    | _ => none
  | _ => none

/-- Match `^getByText\(\/(.+?)\/([gimsuy]*)\)$`, returning pattern and
flags. -/
def getByTextRegexParts (s : String) : Option (String × String) :=
  if "getByText(/".data.isPrefixOf s.data then
    match (s.data.drop 11).reverse with
    | ')' :: rev2 =>
      let fl := rev2.takeWhile isFlagChar
      match rev2.drop fl.length with
      | '/' :: bodyRev =>
        if !bodyRev.isEmpty && bodyRev.all isDotChar then
          some (⟨bodyRev.reverse⟩, ⟨fl.reverse⟩)
        else none
      | _ => none
    | _ => none
  else none

/-- The `timeout=` / `timeout:` guard at the top of `resolveLocator`. -/
def timeoutSelectorGuard (s : String) : Bool :=
  strStartsWith s "timeout=" || strStartsWith s "timeout:"

/-- What `maybeRegex` produces: a plain string or a regular
expression for `getByText`. -/
inductive TextMatcher where
  | plain (text : String)
  | regex (pattern : String) (flags : String)
  deriving Repr, DecidableEq

/-- `maybeRegex` from `executor.ts`: convert `/pattern/flags` into a
regex, otherwise keep the plain text. -/
def maybeRegex (text : String) : TextMatcher :=
  match regexParts text with
  | some (p, f) => .regex p f
  | none => .plain text

/-- The page call produced by `resolveLocator`, as a descriptor. -/
inductive LocatorSpec where
  | cssBody                                         -- page.locator("body")
  | roleFirst (role : String) (name : Option String)
  | textFirst (text : String)
  | textRegexFirst (pattern : String) (flags : String)
  | placeholderFirst (v : String)
  | labelFirst (v : String)
  | testIdFirst (v : String)
  | cssFirst (sel : String)                         -- page.locator(sel).first()
  deriving Repr, DecidableEq

/-- `resolveLocator` from `executor.ts`: the ordered if-chain mapping
a selector string to the page call performed. -/
def resolveLocator (selector : String) : LocatorSpec :=
  if timeoutSelectorGuard selector then .cssBody
  else
    match roleShorthandParts selector with
    | some (role, nm) => .roleFirst role nm
    | none =>
      match bracketRoleParts selector with
      | some (role, nm) => .roleFirst role (some nm)
      | none =>
        if strStartsWith selector "text=" then
          match maybeRegex (strDropChars selector 5) with
          | .plain t => .textFirst t
          | .regex p f => .textRegexFirst p f
        else
          match regexParts selector with
          | some (p, f) => .textRegexFirst p f
          | none =>
            match getByTextRegexParts selector with
            | some (p, f) => .textRegexFirst p f
            | none =>
              if strStartsWith selector "placeholder=" then
                .placeholderFirst (strDropChars selector 12)
              else if strStartsWith selector "label=" then
                .labelFirst (strDropChars selector 6)
              else if strStartsWith selector "testid=" then
                .testIdFirst (strDropChars selector 7)
              else .cssFirst selector

/-- The branches of `resolveLocator`'s if-chain, in source order. -/
inductive Strategy where
  | timeoutGuarded
  | roleShorthand
  | bracketRole
  | textSelector
  | bareRegex
  | getByTextRegexForm
  | placeholderPrefix
  | labelPrefix
  | testIdPrefix
  | cssFallback
  deriving Repr, DecidableEq

/-- Which branch of `resolveLocator` handles a selector string. -/
def classify (s : String) : Strategy :=
  if timeoutSelectorGuard s then .timeoutGuarded
  else if (roleShorthandParts s).isSome then .roleShorthand
  else if (bracketRoleParts s).isSome then .bracketRole
  else if strStartsWith s "text=" then .textSelector
  else if (regexParts s).isSome then .bareRegex
  else if (getByTextRegexParts s).isSome then .getByTextRegexForm
  else if strStartsWith s "placeholder=" then .placeholderPrefix
  else if strStartsWith s "label=" then .labelPrefix
  else if strStartsWith s "testid=" then .testIdPrefix
  else .cssFallback

/-- Position of each branch in the if-chain. -/
def Strategy.idx : Strategy → Nat
  | .timeoutGuarded => 0
  | .roleShorthand => 1
  | .bracketRole => 2
  | .textSelector => 3
  | .bareRegex => 4
  | .getByTextRegexForm => 5
  | .placeholderPrefix => 6
  | .labelPrefix => 7
  | .testIdPrefix => 8
  | .cssFallback => 9

/-- The guard of the branch at a given chain position (the fallback
guard always holds). -/
def guardAt (j : Nat) (s : String) : Bool :=
  match j with
  | 0 => timeoutSelectorGuard s
  | 1 => (roleShorthandParts s).isSome
  | 2 => (bracketRoleParts s).isSome
  | 3 => strStartsWith s "text="
  | 4 => (regexParts s).isSome
  | 5 => (getByTextRegexParts s).isSome
  | 6 => strStartsWith s "placeholder="
  | 7 => strStartsWith s "label="
  | 8 => strStartsWith s "testid="
  | _ => true

/-- Modelled from the spec: the six resolution strategies the spec
enumerates for selector classification — role shorthand, bracketed
role pattern, text selector, bare regular expression,
placeholder/label/test-id prefix, structural fallback.  The source's
`timeout=` guard and its `getByText(/…/flags)` form are branches the
spec's list does not contain. -/
def Strategy.inSpecSix : Strategy → Bool
  | .timeoutGuarded => false
  | .getByTextRegexForm => false
  | _ => true

/-! ## Assert action (`executeAction`, executor lines 297-370) -/

/-- `tryRelaxedLocator` from `executor.ts`: the role whose
name-constraint-free locator is used as the relaxed fallback, `none`
when no relaxed version exists.  First the `^role=(\w+)\[name=`
shorthand, then the `^(button|…)\[name=` bracket pattern. -/
def tryRelaxedLocator (selector : String) : Option String :=
  let roleWithName :=
    if "role=".data.isPrefixOf selector.data then
      let rest := selector.data.drop 5
      let w := rest.takeWhile isWordChar
      if !w.isEmpty && "[name=".data.isPrefixOf (rest.dropWhile isWordChar) then
        some (⟨w⟩ : String)
      else none
    else none
  match roleWithName with
  | some r => some r
  | none =>
    roleNames.findSome? fun r =>
      if (r ++ "[name=").data.isPrefixOf selector.data then some r else none

/-- `extractTextFromSelector` from `executor.ts`: the plain text of a
`text=` selector, `none` for regex patterns and other selectors. -/
def extractTextFromSelector (selector : String) : Option String :=
  if strStartsWith selector "text=" then
    let value := strDropChars selector 5
    if strStartsWith value "/" then none else some value
  else none

/-- JavaScript truthiness of a `string | undefined` value: absent and
empty strings are falsy. -/
def jsTruthy : Option String → Bool
  | some s => !s.data.isEmpty
  | none => false

/-- JavaScript `a || b` on `string | undefined` values. -/
def jsOr (a b : Option String) : Option String :=
  if jsTruthy a then a else b

/-- JavaScript `text?.includes(v)` where `text` may be null. -/
def optIncludes : Option String → String → Bool
  | some t, v => strIncludes t v
  | none, _ => false

/-- JavaScript `text?.slice(0, 100)` interpolated into a template
string: the first 100 characters, or the word `undefined` when `text`
is null. -/
def sliceOrUndefined : Option String → String
  | some t => ⟨t.data.take 100⟩
  | none => "undefined"

/-- What the page would answer to each browser call of the assert
branch.  `locatorText` is `locator.textContent({timeout})`, which may
itself throw; the `.catch`-protected calls are plain values
(`textVisible s` is `page.getByText(s).first().isVisible()`,
the box fields say whether the bounding-box calls returned a box with
positive width and height, `locatorCount` is `locator.count()`,
`bodyText` is the body's text content). -/
structure AssertEnv where
  locatorVisible : Bool
  locatorText : Except String (Option String)
  textVisible : String → Bool
  relaxedVisible : Bool
  relaxedBoxPositive : Bool
  locatorCount : Nat
  locatorBoxPositive : Bool
  bodyText : String

/-- The `assert` branch of `executeAction` (executor lines 297-370):
primary visible-locator path with value check and page-wide text
fallback, then the three fallback tiers, then the final failure. -/
def executeAssert (selector : String) (value : Option String)
    (env : AssertEnv) : Except String Unit :=
  let searchText := jsOr value (extractTextFromSelector selector)
  if env.locatorVisible then
    if jsTruthy value then
      match env.locatorText with
      | .error e => .error e
      | .ok t =>
        let v := value.getD ""
        if !(optIncludes t v) then
          if !(env.textVisible v) then
            .error ("Expected text \"" ++ v ++ "\" but got \"" ++
              sliceOrUndefined t ++ "\"")
          else .ok ()
        else .ok ()
    else .ok ()
  else
    if jsTruthy searchText && env.textVisible (searchText.getD "") then .ok ()
    else if (tryRelaxedLocator selector).isSome && env.relaxedVisible then .ok ()
    else if (tryRelaxedLocator selector).isSome && env.relaxedBoxPositive then
      .ok ()
    else if decide (env.locatorCount > 0) && env.locatorBoxPositive then .ok ()
    else if jsTruthy searchText &&
        strIncludes env.bodyText (searchText.getD "") then .ok ()
    else
      .error ("Assertion failed — element not found or not visible: " ++
        selector ++
        (if jsTruthy searchText then
          " (searched for \"" ++ searchText.getD "" ++ "\")"
        else ""))

/-- Environment where the located element is visible with text
`hello`, while the text `world` is visible elsewhere on the page. -/
def assertFallbackEnv : AssertEnv :=
  { locatorVisible := true
    locatorText := .ok (some "hello")
    textVisible := fun s => s == "world"
    relaxedVisible := false
    relaxedBoxPositive := false
    locatorCount := 0
    locatorBoxPositive := false
    bodyText := "" }

/-- Environment where the located element is visible with text
`goodbye` and nothing else is visible on the page. -/
def assertWitnessEnv : AssertEnv :=
  { locatorVisible := true
    locatorText := .ok (some "goodbye")
    textVisible := fun _ => false
    relaxedVisible := false
    relaxedBoxPositive := false
    locatorCount := 0
    locatorBoxPositive := false
    bodyText := "" }

/-! ## Scenario writer (`src/scenarios/writer.ts`) and parser
(`src/scenarios/parser.ts`)

Both are embedded at the level of lines of characters.  The writer
joins its line array with `\n`; the parser's `gray-matter` split,
heading search and section regexes are line-based on the realistic
input class (no stray `##` substrings and no embedded newlines —
exactly the hypotheses of the round-trip theorem; outside that class
the source's regexes can match across lines). -/

/-- `ScenarioInput` from `writer.ts`. -/
structure ScenarioInput where
  name : String
  category : String
  context : List String
  steps : List String
  expected : List String
  metadata : ScenarioMetadata
  deriving Repr, DecidableEq

/-- `capitalize` from `writer.ts`: upper-case the first character. -/
def capitalize (text : String) : String :=
  match text.data with
  | [] => ""
  | c :: cs => ⟨c.toUpper :: cs⟩

/-- The numbered step lines `1. …`, `2. …` the writer emits
(`steps.forEach((step, i) => lines.push(i+1 + ". " + step))`). -/
def numberSteps (start : Nat) : List String → List String
  | [] => []
  | s :: rest => (Nat.repr start ++ ". " ++ s) :: numberSteps (start + 1) rest

/-- The heading line of a written scenario file. -/
def headingLine (sc : ScenarioInput) : String :=
  "# " ++ capitalize sc.category ++ " — " ++ sc.name

/-- The `lines` array built by `formatScenario` (writer lines 28-64). -/
def formatLines (sc : ScenarioInput) : List String :=
  ["---",
    "priority: " ++ sc.metadata.priority,
    "type: " ++ sc.metadata.type,
    "confidence: " ++ sc.metadata.confidence,
    "---",
    "",
    headingLine sc,
    ""] ++
  ["## Context"] ++ sc.context.map (fun item => "- " ++ item) ++ [""] ++
  ["## Steps"] ++ numberSteps 1 sc.steps ++ [""] ++
  ["## Expected"] ++ sc.expected.map (fun item => "- " ++ item) ++ [""]

/-- `lines.join("\n")` on character lists. -/
def joinLinesChars : List (List Char) → List Char
  | [] => []
  | [l] => l
  | l :: ls => l ++ '\n' :: joinLinesChars ls

/-- `formatScenario` from `writer.ts`: the joined line array. -/
def formatScenario (sc : ScenarioInput) : String :=
  ⟨joinLinesChars ((formatLines sc).map (·.data))⟩

/-- `content.split("\n")` on character lists (splitting on the
newline character; `"".split` gives one empty piece). -/
def splitCharsNl : List Char → List (List Char)
  | [] => [[]]
  | c :: rest =>
    let s := splitCharsNl rest
    if c = '\n' then [] :: s
    else
      match s with
      | [] => [[c]]
      | l :: ls => (c :: l) :: ls

/-- JavaScript `\s` (and `trim`) on the ASCII whitespace the scenario
files contain. -/
def isWsChar (c : Char) : Bool :=
  c = ' ' || c = '\t' || c = '\r' || c = '\n'

/-- JavaScript `String.prototype.trim` on a character list. -/
def jsTrim (l : List Char) : List Char :=
  ((l.dropWhile isWsChar).reverse.dropWhile isWsChar).reverse

/-- The `gray-matter` frontmatter split: when the first line is `---`,
the content is everything after the next `---` line. -/
def dropFrontmatter (lines : List (List Char)) : List (List Char) :=
  match lines with
  | first :: rest =>
    if first = "---".data then (afterDelimiter rest).getD lines else lines
  | [] => []
where
  /-- The lines after the first `---` line, if any. -/
  afterDelimiter : List (List Char) → Option (List (List Char))
    | [] => none
    | l :: ls => if l = "---".data then some ls else afterDelimiter ls

/-- Whether a whole line contains two adjacent `#` characters;
excluding these keeps the parser's unanchored `##\s+Name` regex
line-based. -/
def hasDoubleHash : List Char → Bool
  | c1 :: c2 :: rest => (c1 = '#' && c2 = '#') || hasDoubleHash (c2 :: rest)
  | _ => false

/-- A line `##`, whitespace, the section name (case-insensitively),
then only whitespace — the line form of the parser's
`##\s+Name\s*\n` section-header match. -/
def isSectionHeaderLine (name : String) (l : List Char) : Bool :=
  match l with
  | c1 :: c2 :: rest =>
    c1 = '#' && c2 = '#' &&
      (let ws := rest.takeWhile isWsChar
       !ws.isEmpty &&
         (let rest2 := rest.dropWhile isWsChar
          (name.data.map Char.toLower).isPrefixOf (rest2.map Char.toLower) &&
            (rest2.drop name.data.length).all isWsChar))
  | _ => false

/-- A line starting `##` followed by whitespace — the line form of the
capture-terminating lookahead `(?=\n##\s)` (a bare `##` line
terminates too: its following newline is the `\s`). -/
def isBoundaryLine (l : List Char) : Bool :=
  match l with
  | c1 :: c2 :: rest =>
    c1 = '#' && c2 = '#' &&
      (match rest with
       | [] => true
       | c3 :: _ => isWsChar c3)
  | _ => false

/-- The lines after the first section-header line for `name`, if
any. -/
def findSectionTail (name : String) : List (List Char) → Option (List (List Char))
  | [] => none
  | l :: ls =>
    if isSectionHeaderLine name l then some ls else findSectionTail name ls

/-- `line.replace(/^\s*[-*]\s+/, "")` when the marker pattern
matches: the rest of the line after the marker and its whitespace. -/
def bulletMarkerSplit (l : List Char) : Option (List Char) :=
  match l.dropWhile isWsChar with
  | c :: rest =>
    if c = '-' ∨ c = '*' then
      match rest with
      | r0 :: _ => if isWsChar r0 then some (rest.dropWhile isWsChar) else none
      | [] => none
    else none
  | [] => none

/-- `line.replace(/^\s*\d+\.\s+/, "")` when the marker pattern
matches. -/
def numberedMarkerSplit (l : List Char) : Option (List Char) :=
  let l1 := l.dropWhile isWsChar
  let ds := l1.takeWhile Char.isDigit
  if ds.isEmpty then none
  else
    match l1.drop ds.length with
    | c :: rest =>
      if c = '.' then
        match rest with
        | r0 :: _ => if isWsChar r0 then some (rest.dropWhile isWsChar) else none
        | [] => none
      else none
    | [] => none

/-- One line of `extractSection`'s list processing: strip a bullet
marker, then a numbered marker, then trim. -/
def processSectionLine (l : List Char) : List Char :=
  jsTrim ((numberedMarkerSplit ((bulletMarkerSplit l).getD l)).getD
    ((bulletMarkerSplit l).getD l))

/-- The captured block of lines after a section header: leading
whitespace-only lines are skipped (the header regex's `\s*\n` consumes
through the last newline of the whitespace run) and the capture runs
up to the next `##` boundary line. -/
def sectionBlock (after : List (List Char)) : List (List Char) :=
  match after.dropWhile fun l => l.all isWsChar with
  | [] => []
  | first :: rest => first :: rest.takeWhile fun l => !isBoundaryLine l

/-- `extractSection` from `parser.ts` at the line level: the captured
block, marker-stripped, trimmed, with empty lines dropped. -/
def extractSection (content : List (List Char)) (name : String) :
    List String :=
  match findSectionTail name content with
  | none => []
  | some after =>
    (((sectionBlock after).map processSectionLine).filter
      fun l => !l.isEmpty).map fun l => (⟨l⟩ : String)

/-- The three ordered sections a parsed scenario carries. -/
structure ParsedSections where
  context : List String
  steps : List String
  expected : List String
  deriving Repr, DecidableEq

/-- The content-dependent part of `parseScenario` from `parser.ts`:
the three extracted sections.  (Name, category and metadata are
omitted: no claim concerns them — the category comes from the file
path, not from the text.) -/
def parseScenarioSections (raw : String) : ParsedSections :=
  let content := dropFrontmatter (splitCharsNl raw.data)
  { context := extractSection content "Context"
    steps := extractSection content "Steps"
    expected := extractSection content "Expected" }

/-- The well-formedness of one stored list item that the round trip
needs: nonempty, no surrounding whitespace (the parser trims each
line), no newline (the writer puts each item on one line), and no
adjacent `##` (the parser's section regexes are unanchored). -/
def isCleanItem (l : List Char) : Bool :=
  !l.isEmpty &&
    l.head?.all (fun c => !isWsChar c) &&
    (l.getLast?.all fun c => !isWsChar c) &&
    l.all (fun c => !(c = '\n')) &&
    !hasDoubleHash l

/-- A well-formed scenario used as the round-trip witness. -/
def sampleScenario : ScenarioInput :=
  { name := "User can log in"
    category := "auth"
    context := ["A registered user exists", "The login page is reachable"]
    steps := ["Navigate to the login page", "Fill the email field",
      "Submit the form"]
    expected := ["The dashboard is shown", "A welcome message appears"]
    metadata := ⟨"high", "happy-path", "direct"⟩ }

/-- A scenario whose single context item begins with a numbered-list
marker. -/
def numberedItemScenario : ScenarioInput :=
  { name := "n"
    category := "c"
    context := ["1. two"]
    steps := ["s"]
    expected := ["e"]
    metadata := ⟨"medium", "happy-path", "direct"⟩ }

theorem length_modifyAt (f : α → α) (n : Nat) (l : List α) :
    (modifyAt f n l).length = l.length := by
  induction l generalizing n with
  | nil => cases n <;> rfl
  | cons x xs ih => cases n with
    | zero => rfl
    | succ m => simp [modifyAt, ih]

theorem drop_modifyAt (f : α → α) (k n : Nat) (l : List α) (hkn : k ≤ n) :
    (modifyAt f n l).drop k = modifyAt f (n - k) (l.drop k) := by
  induction k generalizing n l with
  | zero => simp
  | succ k ih =>
    cases l with
    | nil => cases n <;> simp [modifyAt]
    | cons x xs =>
      cases n with
      | zero => omega
      | succ m =>
        simp only [modifyAt, List.drop_succ_cons, Nat.succ_sub_succ]
        exact ih m xs (by omega)

theorem get_modifyAt_self (f : α → α) (n : Nat) (l : List α)
    (hn : n < l.length) :
    (modifyAt f n l).get ⟨n, by rw [length_modifyAt]; exact hn⟩ =
      f (l.get ⟨n, hn⟩) := by
  induction l generalizing n with
  | nil => simp at hn
  | cons x xs ih =>
    cases n with
    | zero => rfl
    | succ m => exact ih m (by simpa using hn)

theorem get_modifyAt_ne (f : α → α) (n j : Nat) (l : List α)
    (hj : j < l.length) (hne : j ≠ n) :
    (modifyAt f n l).get ⟨j, by rw [length_modifyAt]; exact hj⟩ =
      l.get ⟨j, hj⟩ := by
  induction l generalizing n j with
  | nil => simp at hj
  | cons x xs ih =>
    cases n with
    | zero => cases j with
      | zero => exact absurd rfl hne
      | succ i => rfl
    | succ m => cases j with
      | zero => rfl
      | succ i => exact ih m i (by simpa using hj) (by omega)

theorem length_sliceLast {n : Nat} (hn : n ≠ 0) (l : List α)
    (h : n ≤ l.length) : (sliceLast n l).length = n := by
  simp only [sliceLast, if_neg hn, List.length_drop]
  omega

theorem mem_sliceLast {x : α} {n : Nat} {l : List α}
    (h : x ∈ sliceLast n l) : x ∈ l := by
  unfold sliceLast at h
  split at h
  · exact h
  · exact List.mem_of_mem_drop h

theorem stagnationCheck_none_of_two_differ {n : Nat}
    {h : List IterationRecord} {r₁ r₂ : IterationRecord}
    (h₁ : r₁ ∈ sliceLast n h) (h₂ : r₂ ∈ sliceLast n h)
    (hne : r₁.failed ≠ r₂.failed) : stagnationCheck n h = none := by
  unfold stagnationCheck
  by_cases hlen : (sliceLast n h).length ≥ n
  · rcases hrec : sliceLast n h with _ | ⟨r, rs⟩
    · rw [hrec] at h₁; simp at h₁
    · rw [hrec] at h₁ h₂ hlen
      simp only [hrec, hlen, if_true, List.map_cons]
      have hall : ¬ (((rs.map (·.failed)).all (· = r.failed)) = true ∧ r.failed > 0) := by
        rintro ⟨hall, -⟩
        have key : ∀ x ∈ r :: rs, x.failed = r.failed := by
          intro x hx
          rcases List.mem_cons.mp hx with hx | hx
          · rw [hx]
          · have := List.all_eq_true.mp hall (x.failed) (List.mem_map_of_mem _ hx)
            simpa using this
        exact hne ((key r₁ h₁).trans (key r₂ h₂).symm)
      rw [if_neg hall]
  · simp [hlen]

theorem regressionCheck_inv {h : List IterationRecord} {r : StopReason}
    (hr : regressionCheck h = some r) : ∃ a b c, r = .regression a b c := by
  unfold regressionCheck at hr
  split at hr
  · split at hr
    · exact ⟨_, _, _, (Option.some_injective _ hr).symm⟩
    · exact absurd hr (by simp)
  · exact absurd hr (by simp)

theorem oscillationCheck_inv {h : List IterationRecord} {r : StopReason}
    (hr : oscillationCheck h = some r) : r = .oscillation := by
  unfold oscillationCheck at hr
  split at hr
  · split at hr
    · split at hr
      · exact (Option.some_injective _ hr).symm
      · exact absurd hr (by simp)
    · exact absurd hr (by simp)
  · exact absurd hr (by simp)

theorem isNoProgress_shouldStop_of_stagnation_none {n : Nat}
    {h : List IterationRecord} (hs : stagnationCheck n h = none) :
    isNoProgress (shouldStop n h) = false := by
  unfold shouldStop
  split
  · rfl
  · rw [hs]
    rcases hr : regressionCheck h with _ | r
    · rcases ho : oscillationCheck h with _ | r
      · rfl
      · rw [oscillationCheck_inv ho]; rfl
    · obtain ⟨a, b, c, rfl⟩ := regressionCheck_inv hr
      rfl

theorem mem_modifyAt_self (f : α → α) (n : Nat) (l : List α)
    (hn : n < l.length) : f (l.get ⟨n, hn⟩) ∈ modifyAt f n l := by
  have hmem := List.get_mem (modifyAt f n l) n
    (by rw [length_modifyAt]; exact hn)
  rwa [get_modifyAt_self f n l hn] at hmem

theorem mem_modifyAt_of_ne (f : α → α) (n j : Nat) (l : List α)
    (hj : j < l.length) (hne : j ≠ n) : l.get ⟨j, hj⟩ ∈ modifyAt f n l := by
  have hmem := List.get_mem (modifyAt f n l) j
    (by rw [length_modifyAt]; exact hj)
  rwa [get_modifyAt_ne f n j l hj hne] at hmem

theorem stagnationCheck_all_same {h : List IterationRecord} {c : Nat}
    (hlen : 5 ≤ h.length)
    (hall : ∀ r ∈ sliceLast 5 h, r.failed = c) (hc : 0 < c) :
    stagnationCheck 5 h = some (.noProgress c 5) := by
  have hl5 : (sliceLast 5 h).length = 5 := length_sliceLast (by omega) h hlen
  rcases hrec : sliceLast 5 h with _ | ⟨r, rs⟩
  · rw [hrec] at hl5; simp at hl5
  · rw [hrec] at hl5
    have hr : r.failed = c := hall r (hrec ▸ List.mem_cons_self r rs)
    have hrs : (rs.map (·.failed)).all (· = r.failed) = true := by
      rw [List.all_eq_true]
      intro b hb
      obtain ⟨x, hx, rfl⟩ := List.mem_map.mp hb
      simp [hall x (hrec ▸ List.mem_cons_of_mem r hx), hr]
    simp only [stagnationCheck, hrec, List.map_cons]
    rw [if_pos (by omega : (r :: rs).length ≥ 5),
      if_pos ⟨hrs, by omega⟩, hr]

/-- C9: minimum-history gate — with fewer than three recorded
iterations, `shouldStop` never returns a stop reason, whatever the
records contain. -/
theorem C9_minimum_history_gate (n : Nat) (history : List IterationRecord)
    (h : history.length < 3) : shouldStop n history = none := by
  unfold shouldStop
  rw [if_pos h]

/-- Witness for `C9_minimum_history_gate` at a concrete two-record
history with large failure counts. -/
theorem C9_minimum_history_gate_witness :
    ([⟨1, 0, 3, ["a"]⟩, ⟨2, 0, 99, ["b"]⟩] : List IterationRecord).length < 3 ∧
      shouldStop 5 [⟨1, 0, 3, ["a"]⟩, ⟨2, 0, 99, ["b"]⟩] = none :=
  ⟨by decide, C9_minimum_history_gate 5 _ (by decide)⟩

/-- C3: Circuit Breaker stagnation — with at least 5 records whose
last 5 all carry the same nonzero failure count, `shouldStop 5`
returns the "no progress" reason, and changing any one of those 5
records to a different nonzero failure count suppresses the
no-progress signal. -/
theorem C3_stagnation (h : List IterationRecord) (c : Nat)
    (hlen : 5 ≤ h.length)
    (hall : ∀ r ∈ sliceLast 5 h, r.failed = c) (hc : 0 < c) :
    shouldStop 5 h = some (.noProgress c 5) ∧
    ∀ i c', i < 5 → c' ≠ c → 0 < c' →
      isNoProgress (shouldStop 5
        (modifyAt (fun r => { r with failed := c' })
          (h.length - 5 + i) h)) = false := by
  constructor
  · unfold shouldStop
    rw [if_neg (by omega : ¬ h.length < 3),
      stagnationCheck_all_same hlen hall hc]
  · intro i c' hi hne hc'
    set f : IterationRecord → IterationRecord :=
      fun r => { r with failed := c' } with hf
    set h' := modifyAt f (h.length - 5 + i) h with hh'
    have hlen' : h'.length = h.length := length_modifyAt f _ h
    have hw : sliceLast 5 h' = modifyAt f i (sliceLast 5 h) := by
      unfold sliceLast
      rw [if_neg (by norm_num), if_neg (by norm_num), hlen', hh',
        drop_modifyAt f (h.length - 5) (h.length - 5 + i) h (by omega)]
      congr 1
      omega
    have hw5 : (sliceLast 5 h).length = 5 := length_sliceLast (by omega) h hlen
    have hi' : i < (sliceLast 5 h).length := by omega
    obtain ⟨j, hj5, hji⟩ : ∃ j, j < (sliceLast 5 h).length ∧ j ≠ i := by
      rcases Nat.eq_zero_or_pos i with h0 | h0
      · exact ⟨1, by omega, by omega⟩
      · exact ⟨0, by omega, by omega⟩
    have hm1 : f ((sliceLast 5 h).get ⟨i, hi'⟩) ∈ sliceLast 5 h' := by
      rw [hw]; exact mem_modifyAt_self f i _ hi'
    have hm2 : (sliceLast 5 h).get ⟨j, hj5⟩ ∈ sliceLast 5 h' := by
      rw [hw]; exact mem_modifyAt_of_ne f i j _ hj5 hji
    have hd : (f ((sliceLast 5 h).get ⟨i, hi'⟩)).failed ≠
        ((sliceLast 5 h).get ⟨j, hj5⟩).failed := by
      have hgj : ((sliceLast 5 h).get ⟨j, hj5⟩).failed = c :=
        hall _ (List.get_mem _ _ _)
      simp only [hf]
      rw [hgj]
      exact hne
    exact isNoProgress_shouldStop_of_stagnation_none
      (stagnationCheck_none_of_two_differ hm1 hm2 hd)

/-- Witness for `C3_stagnation`: the example history triggers the
no-progress reason, and changing its fifth record (window position 2)
to failure count 4 suppresses it. -/
theorem C3_stagnation_witness :
    shouldStop 5 stagnationExample = some (.noProgress 3 5) ∧
    isNoProgress (shouldStop 5
      (modifyAt (fun r => { r with failed := 4 }) 4 stagnationExample)) = false := by
  have h := C3_stagnation stagnationExample 3 (by decide) (by decide) (by decide)
  exact ⟨h.1, h.2 2 4 (by decide) (by decide) (by decide)⟩

/-- C2: Circuit Breaker regression — with at least 3 records and the
stagnation condition not matching, `shouldStop 5` returns the
regression reason exactly when the last failure count exceeds the
previous one and exceeds the minimum over the whole history by more
than 3; the failure-count history [10,6,4,4,9] signals and
[10,6,4,4,7] does not. -/
theorem C2_regression :
    (∀ (h : List IterationRecord) (previous current : IterationRecord),
      3 ≤ h.length →
      stagnationCheck 5 h = none →
      sliceLast 2 h = [previous, current] →
      (isRegression (shouldStop 5 h) = true ↔
        current.failed > previous.failed ∧
          current.failed > minFailed h + 3)) ∧
    shouldStop 5 regressionExampleA = some (.regression 9 4 4) ∧
    shouldStop 5 regressionExampleB = none := by
  refine ⟨?_, by decide, by decide⟩
  intro h previous current hlen hstag hsl
  by_cases hcond : current.failed > previous.failed ∧
      current.failed > minFailed h + 3
  · have hreg : regressionCheck h =
        some (.regression current.failed previous.failed (minFailed h)) := by
      simp only [regressionCheck, hsl]
      rw [if_pos hcond]
    have hss : shouldStop 5 h =
        some (.regression current.failed previous.failed (minFailed h)) := by
      unfold shouldStop
      rw [if_neg (by omega : ¬ h.length < 3), hstag, hreg]
    rw [hss]
    exact iff_of_true rfl hcond
  · have hreg : regressionCheck h = none := by
      simp only [regressionCheck, hsl]
      rw [if_neg hcond]
    have hss : isRegression (shouldStop 5 h) = false := by
      unfold shouldStop
      rw [if_neg (by omega : ¬ h.length < 3), hstag, hreg]
      rcases ho : oscillationCheck h with _ | r
      · rfl
      · rw [oscillationCheck_inv ho]
        rfl
    rw [hss]
    exact iff_of_false (by simp) hcond

/-- Witness for `C2_regression`: its general part applied to the
[10,6,4,4,9] history. -/
theorem C2_regression_witness :
    isRegression (shouldStop 5 regressionExampleA) = true :=
  (C2_regression.1 regressionExampleA ⟨4, 0, 4, ["s4"]⟩ ⟨5, 0, 9, ["s5"]⟩
    (by decide) (by decide) (by decide)).mpr (by decide)

/-- C1 (amended): Circuit Breaker oscillation — with at least 4
records and neither earlier check matching, `shouldStop 5` returns the
oscillation reason when the failing-scenario identifier LISTS (in
recorded order, as the source compares `JSON.stringify` of the stored
arrays) satisfy A = C, B = D and A ≠ B; the failing-set sequence
[{a},{b},{a},{b}] signals and [{a},{b},{c},{b}] does not. -/
theorem C1_oscillation :
    (∀ (h : List IterationRecord) (a b c d : IterationRecord),
      4 ≤ h.length →
      stagnationCheck 5 h = none →
      regressionCheck h = none →
      sliceLast 4 h = [a, b, c, d] →
      a.failingScenarios = c.failingScenarios →
      b.failingScenarios = d.failingScenarios →
      a.failingScenarios ≠ b.failingScenarios →
      shouldStop 5 h = some .oscillation) ∧
    shouldStop 5 oscillationExampleA = some .oscillation ∧
    shouldStop 5 oscillationExampleB = none := by
  refine ⟨?_, by decide, by decide⟩
  intro h a b c d hlen hstag hreg hsl hac hbd hab
  have hosc : oscillationCheck h = some .oscillation := by
    simp only [oscillationCheck, hsl]
    rw [if_pos (by omega : h.length ≥ 4), if_pos ⟨hac, hbd, hab⟩]
  unfold shouldStop
  rw [if_neg (by omega : ¬ h.length < 3), hstag, hreg, hosc]

/-- Witness for `C1_oscillation`: its general part applied to the
[{a},{b},{a},{b}] history. -/
theorem C1_oscillation_witness :
    shouldStop 5 oscillationExampleA = some .oscillation :=
  C1_oscillation.1 oscillationExampleA ⟨1, 0, 1, ["a"]⟩ ⟨2, 0, 1, ["b"]⟩
    ⟨3, 0, 1, ["a"]⟩ ⟨4, 0, 1, ["b"]⟩ (by decide) (by decide) (by decide)
    (by decide) (by decide) (by decide) (by decide)

/-- C1 counterexample: a history whose failing-scenario identifier
sets satisfy A = C, B = D, A ≠ B with neither earlier stop condition
matching, yet `shouldStop` returns no reason at all, because the
source compares the stored arrays order-sensitively. -/
theorem C1_oscillation_counterexample :
    oscillationSetCex.map (·.failingScenarios) =
      [["a", "b"], ["b"], ["b", "a"], ["b"]] ∧
    (["a", "b"] : List String).toFinset = (["b", "a"] : List String).toFinset ∧
    (["b"] : List String).toFinset = (["b"] : List String).toFinset ∧
    (["a", "b"] : List String).toFinset ≠ (["b"] : List String).toFinset ∧
    stagnationCheck 5 oscillationSetCex = none ∧
    regressionCheck oscillationSetCex = none ∧
    shouldStop 5 oscillationSetCex = none := by decide

theorem length_filter_add_length_filter_not (l : List α) (p : α → Bool) :
    (l.filter p).length + (l.filter (fun a => !(p a))).length = l.length := by
  induction l with
  | nil => rfl
  | cons x xs ih =>
    by_cases h : p x <;> simp [List.filter, h] <;> omega

/-- C7: Orchestrator partial-failure isolation — if scenario `i`
throws during translation or execution, the run still yields one
result per scenario, result `i` is the failed result carrying the
error message, and every other result is exactly what that scenario's
own run produced, independent of the failure at `i`. -/
theorem C7_partial_failure_isolation
    (runs : List (Scenario × Except String VerificationResult))
    (duration : Nat) (i : Nat) (hi : i < runs.length)
    (sc : Scenario) (e : String)
    (hthrow : runs.get ⟨i, hi⟩ = (sc, .error e)) :
    (runAllScenariosModel runs duration).total = runs.length ∧
    (runAllScenariosModel runs duration).results.length = runs.length ∧
    (runAllScenariosModel runs duration).results.get? i =
      some (failedResult sc e) ∧
    (failedResult sc e).passed = false ∧
    (failedResult sc e).actual = some e ∧
    ∀ j (hj : j < runs.length), j ≠ i →
      (runAllScenariosModel runs duration).results.get? j =
        some (resultOf (runs.get ⟨j, hj⟩)) := by
  have hres : (runAllScenariosModel runs duration).results =
      runs.map resultOf := rfl
  refine ⟨by simp [runAllScenariosModel, summarize, runScenarioLoop],
    by simp [hres], ?_, rfl, rfl, ?_⟩
  · rw [hres, List.get?_map, List.get?_eq_get hi, hthrow]
    rfl
  · intro j hj _
    rw [hres, List.get?_map, List.get?_eq_get hj]
    rfl

/-- Witness for `C7_partial_failure_isolation` at a three-scenario run
whose middle scenario throws during translation. -/
theorem C7_partial_failure_isolation_witness :
    (runAllScenariosModel witnessRuns 42).total = 3 ∧
    (runAllScenariosModel witnessRuns 42).results.get? 1 =
      some (failedResult witnessScenarioB "TranslationError: not JSON") := by
  have h := C7_partial_failure_isolation witnessRuns 42 1 (by decide)
    witnessScenarioB "TranslationError: not JSON" rfl
  exact ⟨h.1, h.2.2.1⟩

/-- C10: summary count consistency — every summary built by
`runAllScenarios` has `total` equal to the number of results, `passed`
counting the results whose passed flag is true, `failed` counting
those whose flag is false, and `passed + failed = total`. -/
theorem C10_summary_counts
    (runs : List (Scenario × Except String VerificationResult))
    (duration : Nat) :
    (runAllScenariosModel runs duration).total =
      (runAllScenariosModel runs duration).results.length ∧
    (runAllScenariosModel runs duration).passed =
      ((runAllScenariosModel runs duration).results.filter
        (·.passed)).length ∧
    (runAllScenariosModel runs duration).failed =
      ((runAllScenariosModel runs duration).results.filter
        (fun r => !r.passed)).length ∧
    (runAllScenariosModel runs duration).passed +
        (runAllScenariosModel runs duration).failed =
      (runAllScenariosModel runs duration).total :=
  ⟨rfl, rfl, rfl,
    length_filter_add_length_filter_not (runScenarioLoop runs) (·.passed)⟩

theorem execSteps_fail_fast (scenario : Scenario)
    (options : ExecutorOptions) (shot : Nat → Bool)
    (consoleLogs : List String) (duration : Nat)
    (a : PlaywrightAction) (m : String)
    (ps₂ : List (PlaywrightAction × ActionOutcome)) :
    ∀ (ps₁ : List (PlaywrightAction × ActionOutcome)) (i : Nat)
      (acc : List StepResult) (att : List Nat),
      (∀ x ∈ ps₁, x.2 = .ok) →
      (execSteps scenario options shot consoleLogs duration i acc att
          (ps₁ ++ (a, .err m) :: ps₂)).result.stepResults.length =
        acc.length + (ps₁.length + 1) ∧
      (execSteps scenario options shot consoleLogs duration i acc att
          (ps₁ ++ (a, .err m) :: ps₂)).result.failedStep =
        some (i + ps₁.length + 1) ∧
      (execSteps scenario options shot consoleLogs duration i acc att
          (ps₁ ++ (a, .err m) :: ps₂)).result.passed = false ∧
      (execSteps scenario options shot consoleLogs duration i acc att
          (ps₁ ++ (a, .err m) :: ps₂)).result.actual = some m ∧
      (execSteps scenario options shot consoleLogs duration i acc att
          (ps₁ ++ (a, .err m) :: ps₂)).attempted =
        att ++ List.range' (i + 1) (ps₁.length + 1) := by
  intro ps₁
  induction ps₁ with
  | nil =>
    intro i acc att _
    simp [execSteps, List.range'_succ]
  | cons x ps₁ ih =>
    intro i acc att hok
    obtain ⟨act, out⟩ := x
    have hx : out = .ok := hok (act, out) (List.mem_cons_self _ _)
    subst hx
    simp only [List.cons_append, execSteps, List.append_eq, List.length_cons]
    have h := ih (i + 1)
      (acc ++ [⟨i + 1, act.description, true, none, none⟩])
      (att ++ [i + 1]) (fun x hx => hok x (List.mem_cons_of_mem _ hx))
    simp only [List.append_eq] at h
    refine ⟨?_, ?_, h.2.2.1, h.2.2.2.1, ?_⟩
    · rw [h.1]
      simp only [List.length_append, List.length_cons, List.length_nil]
      try omega
    · rw [h.2.1]
      congr 1
      omega
    · rw [h.2.2.2.2]
      simp [List.range'_succ, List.append_assoc]

/-- C4: Executor fail-fast — when action `k` (1-based, here
`ps₁.length + 1`) is the first action whose execution fails, the
result has exactly `k` step results, `failedStep = k`, the thrown
message is recorded, and the attempted actions are exactly steps
`1..k` — nothing after the failing action is attempted. -/
theorem C4_executor_fail_fast (scenario : Scenario)
    (options : ExecutorOptions) (shot : Nat → Bool)
    (consoleLogs : List String) (duration : Nat)
    (ps₁ ps₂ : List (PlaywrightAction × ActionOutcome))
    (a : PlaywrightAction) (m : String)
    (hok : ∀ x ∈ ps₁, x.2 = .ok) :
    (executeScenario scenario (ps₁ ++ (a, .err m) :: ps₂) options shot
        consoleLogs duration).result.stepResults.length = ps₁.length + 1 ∧
    (executeScenario scenario (ps₁ ++ (a, .err m) :: ps₂) options shot
        consoleLogs duration).result.failedStep = some (ps₁.length + 1) ∧
    (executeScenario scenario (ps₁ ++ (a, .err m) :: ps₂) options shot
        consoleLogs duration).result.passed = false ∧
    (executeScenario scenario (ps₁ ++ (a, .err m) :: ps₂) options shot
        consoleLogs duration).result.actual = some m ∧
    (executeScenario scenario (ps₁ ++ (a, .err m) :: ps₂) options shot
        consoleLogs duration).attempted = List.range' 1 (ps₁.length + 1) := by
  have h := execSteps_fail_fast scenario options shot consoleLogs duration
    a m ps₂ ps₁ 0 [] [] hok
  simpa [executeScenario] using h

/-- Witness for `C4_executor_fail_fast`: four concrete actions whose
third fails; exactly three step results, `failedStep = 3`, attempted
steps `[1, 2, 3]`. -/
theorem C4_executor_fail_fast_witness :
    (executeScenario (mkScenario "W" "general" "w.md") witnessActions
        witnessOptions (fun _ => false) [] 0).result.stepResults.length = 3 ∧
    (executeScenario (mkScenario "W" "general" "w.md") witnessActions
        witnessOptions (fun _ => false) [] 0).result.failedStep = some 3 ∧
    (executeScenario (mkScenario "W" "general" "w.md") witnessActions
        witnessOptions (fun _ => false) [] 0).attempted = [1, 2, 3] := by
  have h := C4_executor_fail_fast (mkScenario "W" "general" "w.md")
    witnessOptions (fun _ => false) [] 0
    [(clickAction "step one", .ok), (clickAction "step two", .ok)]
    [(clickAction "step four", .ok)]
    (clickAction "step three") "element not found" (by decide)
  exact ⟨h.1, h.2.1, h.2.2.2.2.trans (by decide)⟩

theorem Strategy.idx_injective {a b : Strategy} (h : a.idx = b.idx) :
    a = b := by
  cases a <;> cases b <;> simp_all [Strategy.idx]

theorem classify_first_match (s : String) :
    guardAt (classify s).idx s = true ∧
    ∀ j, j < (classify s).idx → guardAt j s = false := by
  unfold classify
  by_cases h0 : timeoutSelectorGuard s = true
  · rw [if_pos h0]
    exact ⟨h0, by intro j hj; simp [Strategy.idx] at hj⟩
  by_cases h1 : (roleShorthandParts s).isSome = true
  · rw [if_neg h0, if_pos h1]
    refine ⟨h1, ?_⟩
    intro j hj
    simp only [Strategy.idx] at hj
    interval_cases j
    simp_all [guardAt]
  by_cases h2 : (bracketRoleParts s).isSome = true
  · rw [if_neg h0, if_neg h1, if_pos h2]
    refine ⟨h2, ?_⟩
    intro j hj
    simp only [Strategy.idx] at hj
    interval_cases j <;> simp_all [guardAt]
  by_cases h3 : strStartsWith s "text=" = true
  · rw [if_neg h0, if_neg h1, if_neg h2, if_pos h3]
    refine ⟨h3, ?_⟩
    intro j hj
    simp only [Strategy.idx] at hj
    interval_cases j <;> simp_all [guardAt]
  by_cases h4 : (regexParts s).isSome = true
  · rw [if_neg h0, if_neg h1, if_neg h2, if_neg h3, if_pos h4]
    refine ⟨h4, ?_⟩
    intro j hj
    simp only [Strategy.idx] at hj
    interval_cases j <;> simp_all [guardAt]
  by_cases h5 : (getByTextRegexParts s).isSome = true
  · rw [if_neg h0, if_neg h1, if_neg h2, if_neg h3, if_neg h4, if_pos h5]
    refine ⟨h5, ?_⟩
    intro j hj
    simp only [Strategy.idx] at hj
    interval_cases j <;> simp_all [guardAt]
  by_cases h6 : strStartsWith s "placeholder=" = true
  · rw [if_neg h0, if_neg h1, if_neg h2, if_neg h3, if_neg h4, if_neg h5,
      if_pos h6]
    refine ⟨h6, ?_⟩
    intro j hj
    simp only [Strategy.idx] at hj
    interval_cases j <;> simp_all [guardAt]
  by_cases h7 : strStartsWith s "label=" = true
  · rw [if_neg h0, if_neg h1, if_neg h2, if_neg h3, if_neg h4, if_neg h5,
      if_neg h6, if_pos h7]
    refine ⟨h7, ?_⟩
    intro j hj
    simp only [Strategy.idx] at hj
    interval_cases j <;> simp_all [guardAt]
  by_cases h8 : strStartsWith s "testid=" = true
  · rw [if_neg h0, if_neg h1, if_neg h2, if_neg h3, if_neg h4, if_neg h5,
      if_neg h6, if_neg h7, if_pos h8]
    refine ⟨h8, ?_⟩
    intro j hj
    simp only [Strategy.idx] at hj
    interval_cases j <;> simp_all [guardAt]
  · rw [if_neg h0, if_neg h1, if_neg h2, if_neg h3, if_neg h4, if_neg h5,
      if_neg h6, if_neg h7, if_neg h8]
    refine ⟨rfl, ?_⟩
    intro j hj
    simp only [Strategy.idx] at hj
    interval_cases j <;> simp_all [guardAt]

/-- C6 (amended): selector classification over the branches the
source actually has — the spec's six plus the `timeout=`/`timeout:`
guard and the `getByText(/…/flags)` form — is total and
deterministic: `classify` is a function, the guard of the chosen
branch holds, every earlier guard fails (the fallback guard always
holds, so classification never fails), and any branch whose guard
holds while all earlier guards fail is the chosen one. -/
theorem C6_selector_classification (s : String) :
    guardAt (classify s).idx s = true ∧
    (∀ j, j < (classify s).idx → guardAt j s = false) ∧
    ∀ t : Strategy, guardAt t.idx s = true →
      (∀ j, j < t.idx → guardAt j s = false) → t = classify s := by
  have M := classify_first_match s
  refine ⟨M.1, M.2, ?_⟩
  intro t ht hprev
  rcases Nat.lt_trichotomy t.idx (classify s).idx with h | h | h
  · rw [M.2 t.idx h] at ht
    exact absurd ht (by simp)
  · exact Strategy.idx_injective h
  · rw [hprev (classify s).idx h] at M
    exact absurd M.1 (by simp)

/-- Witness for `C6_selector_classification` at selector
`text=Hello`. -/
theorem C6_selector_classification_witness :
    classify "text=Hello" = .textSelector ∧
    guardAt (classify "text=Hello").idx "text=Hello" = true :=
  ⟨by decide, (C6_selector_classification "text=Hello").1⟩

/-- C6 counterexample: the inputs `timeout=5000` and
`getByText(/foo/i)` are classified by branches outside the spec's six
strategies; in particular `timeout=5000` resolves to the fixed `body`
locator, not to the structural fallback on the raw string. -/
theorem C6_selector_classification_counterexample :
    classify "timeout=5000" = .timeoutGuarded ∧
    Strategy.inSpecSix (classify "timeout=5000") = false ∧
    resolveLocator "timeout=5000" = .cssBody ∧
    resolveLocator "timeout=5000" ≠ .cssFirst "timeout=5000" ∧
    classify "getByText(/foo/i)" = .getByTextRegexForm ∧
    Strategy.inSpecSix (classify "getByText(/foo/i)") = false := by decide

/-- C5 (amended): assert-action semantics for a visible element and a
supplied nonempty value — the text content is fetched and the outcome
is characterised exactly: the action passes precisely when the value
is contained as a substring of the fetched text OR the value is
visible anywhere on the page, and only when neither holds does it
fail, with the explicit "Expected X but got Y" message. -/
theorem C5_assert_value_semantics (selector : String) (v : String)
    (env : AssertEnv) (t : Option String)
    (hv : v ≠ "") (hvis : env.locatorVisible = true)
    (ht : env.locatorText = .ok t) :
    executeAssert selector (some v) env =
      (if optIncludes t v || env.textVisible v then .ok ()
       else .error ("Expected text \"" ++ v ++ "\" but got \"" ++
         sliceOrUndefined t ++ "\"")) := by
  have hvv : jsTruthy (some v) = true := by
    rcases v with ⟨d⟩
    cases d with
    | nil => exact absurd rfl hv
    | cons c cs => simp [jsTruthy]
  cases hinc : optIncludes t v with
  | true => simp [executeAssert, hvis, hvv, ht, hinc]
  | false =>
    cases hvisb : env.textVisible v with
    | true => simp [executeAssert, hvis, hvv, ht, hinc, hvisb]
    | false => simp [executeAssert, hvis, hvv, ht, hinc, hvisb]

/-- Witness for `C5_assert_value_semantics`: asserting `welcome`
against a visible element whose text is `goodbye`, with the value not
visible anywhere on the page, fails with the explicit message. -/
theorem C5_assert_value_semantics_witness :
    executeAssert ".msg" (some "welcome") assertWitnessEnv =
      .error "Expected text \"welcome\" but got \"goodbye\"" :=
  (C5_assert_value_semantics ".msg" "welcome" assertWitnessEnv
    (some "goodbye") (by decide) rfl rfl).trans rfl

/-- C5 counterexample: asserting `world` against a visible element
whose text is `hello` passes (no failure message) because the value
is visible elsewhere on the page, although `world` is not a substring
of the fetched text. -/
theorem C5_assert_value_semantics_counterexample :
    executeAssert ".greeting" (some "world") assertFallbackEnv =
      .ok () ∧
    strIncludes "hello" "world" = false ∧
    assertFallbackEnv.locatorVisible = true ∧
    assertFallbackEnv.locatorText = .ok (some "hello") := by
  refine ⟨rfl, by decide, rfl, rfl⟩

theorem splitCharsNl_no_nl {l : List Char} (h : '\n' ∉ l) :
    splitCharsNl l = [l] := by
  induction l with
  | nil => rfl
  | cons c rest ih =>
    have hc : ¬ c = '\n' := fun hc => h (hc ▸ List.mem_cons_self c rest)
    have hrest : '\n' ∉ rest := fun hm => h (List.mem_cons_of_mem c hm)
    simp [splitCharsNl, ih hrest, hc]

theorem splitCharsNl_append {l rest : List Char} (h : '\n' ∉ l) :
    splitCharsNl (l ++ '\n' :: rest) = l :: splitCharsNl rest := by
  induction l with
  | nil => simp [splitCharsNl]
  | cons c cs ih =>
    have hc : ¬ c = '\n' := fun hc => h (hc ▸ List.mem_cons_self c cs)
    have hcs : '\n' ∉ cs := fun hm => h (List.mem_cons_of_mem c hm)
    simp [splitCharsNl, ih hcs, hc]

theorem splitCharsNl_joinLinesChars :
    ∀ {L : List (List Char)}, L ≠ [] → (∀ l ∈ L, '\n' ∉ l) →
      splitCharsNl (joinLinesChars L) = L := by
  intro L
  induction L with
  | nil => intro h; exact absurd rfl h
  | cons x ls ih =>
    intro _ hall
    cases ls with
    | nil => exact splitCharsNl_no_nl (hall x (List.mem_cons_self x []))
    | cons y ls' =>
      rw [show joinLinesChars (x :: y :: ls') =
        x ++ '\n' :: joinLinesChars (y :: ls') from rfl]
      rw [splitCharsNl_append (hall x (List.mem_cons_self x _))]
      rw [ih (by simp) fun l hl => hall l (List.mem_cons_of_mem _ hl)]

theorem digit_props {c : Char} (h : c.isDigit = true) :
    isWsChar c = false ∧ c ≠ '#' ∧ c ≠ '-' ∧ c ≠ '*' ∧ c ≠ '\n' := by
  refine ⟨?_, ?_, ?_, ?_, ?_⟩
  · by_contra hne
    have hw : isWsChar c = true := by revert hne; cases isWsChar c <;> simp
    simp [isWsChar] at hw
    rcases hw with ((rfl | rfl) | rfl) | rfl <;> exact absurd h (by decide)
  all_goals rintro rfl <;> exact absurd h (by decide)

theorem digitChar_isDigit : ∀ m : Nat, m < 10 → (Nat.digitChar m).isDigit = true := by
  decide

theorem toDigitsCore_ne_nil : ∀ (f n : Nat) (l : List Char),
    Nat.toDigitsCore 10 (f + 1) n l ≠ [] := by
  intro f
  induction f with
  | zero =>
    intro n l
    simp only [Nat.toDigitsCore]
    split <;> simp
  | succ f ih =>
    intro n l
    show Nat.toDigitsCore 10 (f + 1 + 1) n l ≠ []
    simp only [Nat.toDigitsCore]
    split
    · simp
    · exact ih _ _

theorem toDigitsCore_all_digits : ∀ (f n : Nat) (l : List Char),
    (∀ c ∈ l, c.isDigit = true) →
    ∀ c ∈ Nat.toDigitsCore 10 f n l, c.isDigit = true := by
  intro f
  induction f with
  | zero => intro n l hl; simpa [Nat.toDigitsCore] using hl
  | succ f ih =>
    intro n l hl
    have hmem : ∀ c ∈ Nat.digitChar (n % 10) :: l, c.isDigit = true := by
      intro c hc
      rcases List.mem_cons.mp hc with rfl | hc
      · exact digitChar_isDigit _ (Nat.mod_lt _ (by norm_num))
      · exact hl c hc
    simp only [Nat.toDigitsCore]
    split
    · exact hmem
    · exact ih _ _ hmem

theorem repr_data_spec (n : Nat) :
    (Nat.repr n).data ≠ [] ∧ ∀ c ∈ (Nat.repr n).data, c.isDigit = true := by
  have hd : (Nat.repr n).data = Nat.toDigitsCore 10 (n + 1) n [] := rfl
  rw [hd]
  exact ⟨toDigitsCore_ne_nil n n [],
    toDigitsCore_all_digits (n + 1) n [] (by simp)⟩

theorem clean_head {l : List Char} (h : isCleanItem l = true) :
    ∃ c cs, l = c :: cs ∧ isWsChar c = false := by
  cases l with
  | nil => simp [isCleanItem] at h
  | cons c cs =>
    refine ⟨c, cs, rfl, ?_⟩
    simp only [isCleanItem, Bool.and_eq_true] at h
    simpa using h.1.1.1.2

theorem clean_no_nl {l : List Char} (h : isCleanItem l = true) : '\n' ∉ l := by
  simp only [isCleanItem, Bool.and_eq_true] at h
  intro hm
  have := List.all_eq_true.mp h.1.2 _ hm
  simp at this

theorem clean_trim {l : List Char} (h : isCleanItem l = true) :
    jsTrim l = l := by
  obtain ⟨c, cs, rfl, hc⟩ := clean_head h
  have hlast : ((c :: cs).getLast?.all fun x => !isWsChar x) = true := by
    simp only [isCleanItem, Bool.and_eq_true] at h
    exact h.1.1.2
  unfold jsTrim
  rw [List.dropWhile_cons, if_neg (by simp [hc])]
  cases hrev : (c :: cs).reverse with
  | nil => simp at hrev
  | cons d ds =>
    have hd : isWsChar d = false := by
      have hh : (c :: cs).getLast? = some d := by
        rw [List.getLast?_eq_head?_reverse, hrev]
        rfl
      rw [hh] at hlast
      simpa using hlast
    rw [List.dropWhile_cons, if_neg (by simp [hd]), ← hrev,
      List.reverse_reverse]

theorem takeWhile_append_all {p : α → Bool} {l1 l2 : List α}
    (h : ∀ x ∈ l1, p x = true) :
    List.takeWhile p (l1 ++ l2) = l1 ++ List.takeWhile p l2 := by
  induction l1 with
  | nil => simp
  | cons x xs ih =>
    simp only [List.cons_append, List.takeWhile_cons,
      if_pos (h x (List.mem_cons_self x xs))]
    rw [ih fun y hy => h y (List.mem_cons_of_mem _ hy)]

theorem takeWhile_append_stop {p : α → Bool} {l1 l2 : List α} {c : α}
    (h : ∀ x ∈ l1, p x = true) (hc : p c = false) :
    List.takeWhile p (l1 ++ c :: l2) = l1 := by
  rw [takeWhile_append_all h, List.takeWhile_cons, if_neg (by simp [hc])]
  simp

theorem findSectionTail_cons {name : String} {l : List Char}
    {ls : List (List Char)} :
    findSectionTail name (l :: ls) =
      if isSectionHeaderLine name l then some ls
      else findSectionTail name ls := rfl

theorem findSectionTail_append {name : String} {l1 l2 : List (List Char)}
    (h : ∀ x ∈ l1, isSectionHeaderLine name x = false) :
    findSectionTail name (l1 ++ l2) = findSectionTail name l2 := by
  induction l1 with
  | nil => rfl
  | cons x xs ih =>
    rw [List.cons_append, findSectionTail_cons,
      if_neg (by simp [h x (List.mem_cons_self x xs)])]
    exact ih fun y hy => h y (List.mem_cons_of_mem _ hy)

theorem isSectionHeaderLine_false_head {name : String} {c : Char}
    {rest : List Char} (hc : c ≠ '#') :
    isSectionHeaderLine name (c :: rest) = false := by
  cases rest with
  | nil => rfl
  | cons c2 r => simp [isSectionHeaderLine, hc]

theorem isSectionHeaderLine_false_head2 {name : String} {c1 c2 : Char}
    {rest : List Char} (hc : c2 ≠ '#') :
    isSectionHeaderLine name (c1 :: c2 :: rest) = false := by
  simp [isSectionHeaderLine, hc]

theorem isBoundaryLine_false_head {c : Char} {rest : List Char}
    (hc : c ≠ '#') : isBoundaryLine (c :: rest) = false := by
  cases rest with
  | nil => rfl
  | cons c2 r => simp [isBoundaryLine, hc]

theorem numberedMarkerSplit_steps {s : List Char}
    (hs : isCleanItem s = true) (n : Nat) :
    numberedMarkerSplit ((Nat.repr n).data ++ '.' :: ' ' :: s) = some s := by
  obtain ⟨hne, hdig⟩ := repr_data_spec n
  obtain ⟨d, ds, hrepr⟩ : ∃ d ds, (Nat.repr n).data = d :: ds := by
    cases hr : (Nat.repr n).data with
    | nil => exact absurd hr hne
    | cons d ds => exact ⟨d, ds, rfl⟩
  have hd : d.isDigit = true := hdig d (by rw [hrepr]; exact List.mem_cons_self _ _)
  obtain ⟨c, cs, hs', hc⟩ := clean_head hs
  have e1 : List.dropWhile isWsChar ((Nat.repr n).data ++ '.' :: ' ' :: s) =
      (Nat.repr n).data ++ '.' :: ' ' :: s := by
    rw [hrepr, List.cons_append, List.dropWhile_cons,
      if_neg (by simp [(digit_props hd).1])]
  have e2 : List.takeWhile Char.isDigit
      ((Nat.repr n).data ++ '.' :: ' ' :: s) = (Nat.repr n).data :=
    takeWhile_append_stop hdig (by decide)
  have e3 : ((Nat.repr n).data ++ '.' :: ' ' :: s).drop
      ((Nat.repr n).data).length = '.' :: ' ' :: s := List.drop_left _ _
  have e4 : ((Nat.repr n).data).isEmpty = false := by rw [hrepr]; rfl
  unfold numberedMarkerSplit
  simp only [e1, e2, e3, e4]
  show some (List.dropWhile isWsChar (' ' :: s)) = some s
  rw [show List.dropWhile isWsChar (' ' :: s) = List.dropWhile isWsChar s
    from rfl]
  rw [hs', List.dropWhile_cons, if_neg (by simp [hc])]

theorem bulletMarkerSplit_steps (n : Nat) {s : List Char} :
    bulletMarkerSplit ((Nat.repr n).data ++ '.' :: ' ' :: s) = none := by
  obtain ⟨hne, hdig⟩ := repr_data_spec n
  obtain ⟨d, ds, hrepr⟩ : ∃ d ds, (Nat.repr n).data = d :: ds := by
    cases hr : (Nat.repr n).data with
    | nil => exact absurd hr hne
    | cons d ds => exact ⟨d, ds, rfl⟩
  have hd : d.isDigit = true := hdig d (by rw [hrepr]; exact List.mem_cons_self _ _)
  unfold bulletMarkerSplit
  rw [hrepr, List.cons_append, List.dropWhile_cons,
    if_neg (by simp [(digit_props hd).1])]
  exact if_neg (by rintro (rfl | rfl) <;> exact absurd hd (by decide))

theorem processSectionLine_bullet {item : List Char}
    (h : isCleanItem item = true)
    (hnum : numberedMarkerSplit item = none) :
    processSectionLine ('-' :: ' ' :: item) = item := by
  obtain ⟨c, cs, rfl, hc⟩ := clean_head h
  have hb : bulletMarkerSplit ('-' :: ' ' :: c :: cs) = some (c :: cs) := by
    rw [show bulletMarkerSplit ('-' :: ' ' :: c :: cs) =
      some (List.dropWhile isWsChar (c :: cs)) from rfl]
    rw [List.dropWhile_cons, if_neg (by simp [hc])]
  unfold processSectionLine
  rw [hb]
  simp only [Option.getD_some]
  rw [hnum]
  simp only [Option.getD_none]
  exact clean_trim h

theorem processSectionLine_step {s : List Char}
    (hs : isCleanItem s = true) (n : Nat) :
    processSectionLine ((Nat.repr n).data ++ '.' :: ' ' :: s) = s := by
  unfold processSectionLine
  rw [bulletMarkerSplit_steps n]
  simp only [Option.getD_none]
  rw [numberedMarkerSplit_steps hs n]
  simp only [Option.getD_some]
  exact clean_trim hs

theorem processSectionLine_nil : processSectionLine [] = [] := rfl

theorem bullet_lines_processed (items : List String)
    (h : ∀ it ∈ items, isCleanItem it.data = true ∧
      numberedMarkerSplit it.data = none) :
    (((items.map fun it => '-' :: ' ' :: it.data).map
        processSectionLine).filter fun l => !l.isEmpty).map
      (fun l => (⟨l⟩ : String)) = items := by
  induction items with
  | nil => rfl
  | cons it rest ih =>
    obtain ⟨hclean, hnum⟩ := h it (List.mem_cons_self it rest)
    have hproc := processSectionLine_bullet hclean hnum
    have hnonempty : (it.data).isEmpty = false := by
      obtain ⟨c, cs, heq, -⟩ := clean_head hclean
      rw [heq]
      rfl
    simp only [List.map_cons, hproc, List.filter_cons]
    rw [if_pos (by simp [hnonempty])]
    simp only [List.map_cons]
    rw [ih fun x hx => h x (List.mem_cons_of_mem _ hx)]

theorem step_lines_processed : ∀ (start : Nat) (steps : List String),
    (∀ s ∈ steps, isCleanItem s.data = true) →
    ((((numberSteps start steps).map (·.data)).map
        processSectionLine).filter fun l => !l.isEmpty).map
      (fun l => (⟨l⟩ : String)) = steps := by
  intro start steps
  induction steps generalizing start with
  | nil => intro _; rfl
  | cons s rest ih =>
    intro h
    have hclean := h s (List.mem_cons_self s rest)
    have hdata : (Nat.repr start ++ ". " ++ s).data =
        (Nat.repr start).data ++ '.' :: ' ' :: s.data := by
      rw [String.data_append, String.data_append, List.append_assoc]
      rfl
    have hnonempty : (s.data).isEmpty = false := by
      obtain ⟨c, cs, heq, -⟩ := clean_head hclean
      rw [heq]
      rfl
    simp only [numberSteps, List.map_cons, hdata]
    rw [processSectionLine_step hclean start]
    simp only [List.filter_cons]
    rw [if_pos (by simp [hnonempty])]
    simp only [List.map_cons]
    rw [ih (start + 1) fun x hx => h x (List.mem_cons_of_mem _ hx)]

theorem numberSteps_shape : ∀ (start : Nat) (steps : List String),
    ∀ l ∈ (numberSteps start steps).map (·.data),
      ∃ d rest, l = d :: rest ∧ d.isDigit = true := by
  intro start steps
  induction steps generalizing start with
  | nil => intro l hl; simp [numberSteps] at hl
  | cons s ss ih =>
    intro l hl
    simp only [numberSteps, List.map_cons, List.mem_cons] at hl
    rcases hl with rfl | hl
    · obtain ⟨hne, hdig⟩ := repr_data_spec start
      obtain ⟨d, ds, hrepr⟩ : ∃ d ds, (Nat.repr start).data = d :: ds := by
        cases hr : (Nat.repr start).data with
        | nil => exact absurd hr hne
        | cons d ds => exact ⟨d, ds, rfl⟩
      refine ⟨d, ds ++ '.' :: ' ' :: s.data, ?_, hdig d (by rw [hrepr]; exact List.mem_cons_self _ _)⟩
      rw [String.data_append, String.data_append, List.append_assoc, hrepr]
      rfl
    · exact ih (start + 1) l hl

theorem numberSteps_no_nl : ∀ (start : Nat) (steps : List String),
    (∀ s ∈ steps, isCleanItem s.data = true) →
    ∀ l ∈ (numberSteps start steps).map (·.data), '\n' ∉ l := by
  intro start steps
  induction steps generalizing start with
  | nil => intro _ l hl; simp [numberSteps] at hl
  | cons s ss ih =>
    intro h l hl
    simp only [numberSteps, List.map_cons, List.mem_cons] at hl
    rcases hl with rfl | hl
    · have hdata : (Nat.repr start ++ ". " ++ s).data =
          (Nat.repr start).data ++ '.' :: ' ' :: s.data := by
        rw [String.data_append, String.data_append, List.append_assoc]
        rfl
      rw [hdata]
      intro hm
      rcases List.mem_append.mp hm with hm | hm
      · exact absurd rfl (digit_props ((repr_data_spec start).2 _ hm)).2.2.2.2
      · rcases List.mem_cons.mp hm with h1 | hm
        · exact absurd h1.symm (by decide)
        · rcases List.mem_cons.mp hm with h1 | hm
          · exact absurd h1.symm (by decide)
          · exact clean_no_nl (h s (List.mem_cons_self s ss)) hm
    · exact ih (start + 1) (fun x hx => h x (List.mem_cons_of_mem _ hx)) l hl

theorem extractSection_spec (name : String)
    (pre itemLines post : List (List Char)) (header : List Char)
    (items : List String)
    (hpre : ∀ x ∈ pre, isSectionHeaderLine name x = false)
    (hheader : isSectionHeaderLine name header = true)
    (hne : itemLines ≠ [])
    (hws : ∀ l ∈ itemLines, l.all isWsChar = false)
    (hbnd : ∀ l ∈ itemLines, isBoundaryLine l = false)
    (hpost : post = [] ∨ ∃ ph pt, post = ph :: pt ∧ isBoundaryLine ph = true)
    (hproc : ((itemLines.map processSectionLine).filter fun l => !l.isEmpty).map
      (fun l => (⟨l⟩ : String)) = items) :
    extractSection (pre ++ header :: (itemLines ++ [[]] ++ post)) name = items := by
  have hfound : findSectionTail name
      (pre ++ header :: (itemLines ++ [[]] ++ post)) =
      some (itemLines ++ [[]] ++ post) := by
    rw [findSectionTail_append hpre, findSectionTail_cons, if_pos hheader]
  obtain ⟨f, fs, rfl⟩ : ∃ f fs, itemLines = f :: fs := by
    cases itemLines with
    | nil => exact absurd rfl hne
    | cons f fs => exact ⟨f, fs, rfl⟩
  have hfs : ∀ l ∈ fs, isBoundaryLine l = false :=
    fun l hl => hbnd l (List.mem_cons_of_mem _ hl)
  have hblock : sectionBlock ((f :: fs) ++ [[]] ++ post) =
      (f :: fs) ++ [[]] := by
    unfold sectionBlock
    rw [show (f :: fs) ++ [[]] ++ post = f :: (fs ++ [] :: post) by simp]
    rw [List.dropWhile_cons,
      if_neg (by simp [hws f (List.mem_cons_self f fs)])]
    have htake : List.takeWhile (fun l => !isBoundaryLine l)
        (fs ++ [] :: post) = fs ++ [[]] := by
      rw [takeWhile_append_all (by intro x hx; simp [hfs x hx]),
        List.takeWhile_cons]
      rw [if_pos (by decide)]
      rcases hpost with rfl | ⟨ph, pt, rfl, hph⟩
      · rfl
      · rw [List.takeWhile_cons, if_neg (by simp [hph])]
    rw [show (match f :: (fs ++ [] :: post) with
      | [] => ([] : List (List Char))
      | first :: rest =>
        first :: rest.takeWhile fun l => !isBoundaryLine l) =
      f :: List.takeWhile (fun l => !isBoundaryLine l)
        (fs ++ [] :: post) from rfl]
    rw [htake]
    rfl
  unfold extractSection
  rw [hfound]
  show (((sectionBlock (f :: fs ++ [[]] ++ post)).map
      processSectionLine).filter fun l => !l.isEmpty).map
    (fun l => (⟨l⟩ : String)) = items
  rw [hblock]
  rw [show f :: fs ++ [[]] = (f :: fs) ++ [[]] from rfl]
  rw [List.map_append, List.filter_append]
  rw [show List.filter (fun l => !l.isEmpty)
    (List.map processSectionLine [[]]) = [] from by decide]
  rw [List.append_nil]
  exact hproc

theorem dash_data (it : String) : ("- " ++ it).data = '-' :: ' ' :: it.data := by
  rw [String.data_append]
  rfl

theorem dash_line_props (it : List Char) :
    (('-' :: ' ' :: it).all isWsChar) = false ∧
    isBoundaryLine ('-' :: ' ' :: it) = false ∧
    ∀ name, isSectionHeaderLine name ('-' :: ' ' :: it) = false :=
  ⟨by simp [List.all_cons, show isWsChar '-' = false from rfl],
    isBoundaryLine_false_head (by decide),
    fun _ => isSectionHeaderLine_false_head (by decide)⟩

theorem prefixed_ne_dashes {pre : String} {p : List Char}
    (h : 4 ≤ pre.data.length) : pre.data ++ p ≠ "---".data := by
  intro heq
  have hlen := congrArg List.length heq
  rw [List.length_append] at hlen
  have h3 : ("---".data).length = 3 := rfl
  omega

theorem afterDelimiter_cons (l : List Char) (ls : List (List Char)) :
    dropFrontmatter.afterDelimiter (l :: ls) =
      if l = "---".data then some ls
      else dropFrontmatter.afterDelimiter ls := rfl

theorem dropFrontmatter_cons (first : List Char) (rest : List (List Char)) :
    dropFrontmatter (first :: rest) =
      if first = "---".data then
        (dropFrontmatter.afterDelimiter rest).getD (first :: rest)
      else first :: rest := rfl

theorem dropFrontmatter_five {A B C : List Char} {rest : List (List Char)}
    (hA : A ≠ "---".data) (hB : B ≠ "---".data) (hC : C ≠ "---".data) :
    dropFrontmatter ("---".data :: A :: B :: C :: "---".data :: rest) =
      rest := by
  rw [dropFrontmatter_cons, if_pos rfl, afterDelimiter_cons, if_neg hA,
    afterDelimiter_cons, if_neg hB, afterDelimiter_cons, if_neg hC,
    afterDelimiter_cons, if_pos rfl]
  rfl

theorem headingLine_shape (sc : ScenarioInput) :
    (headingLine sc).data = '#' :: ' ' ::
      ((capitalize sc.category).data ++ (" — ".data ++ sc.name.data)) := by
  unfold headingLine
  rw [String.data_append, String.data_append, String.data_append,
    List.append_assoc, List.append_assoc]
  rfl

/-- C8 (amended): scenario round trip — writing a scenario and parsing
the produced text yields the same ordered context, steps and expected
lists, for every scenario whose sections are nonempty, whose items are
nonempty, trimmed, newline-free and `##`-free, whose context and
expected items do not begin with a numbered-list marker, and whose
heading line and metadata values are newline-free (and the heading
`##`-free).  The parser strips whatever bullet or number markers the
stored lines carry. -/
theorem C8_scenario_roundtrip (sc : ScenarioInput)
    (hctx : sc.context ≠ []) (hsteps : sc.steps ≠ [])
    (hexp : sc.expected ≠ [])
    (hitems : ∀ it ∈ sc.context ++ sc.steps ++ sc.expected,
      isCleanItem it.data = true)
    (hmarkers : ∀ it ∈ sc.context ++ sc.expected,
      numberedMarkerSplit it.data = none)
    (hheadnl : '\n' ∉ (headingLine sc).data)
    (hheadhash : hasDoubleHash (headingLine sc).data = false)
    (hpnl : '\n' ∉ sc.metadata.priority.data)
    (htnl : '\n' ∉ sc.metadata.type.data)
    (hcnl : '\n' ∉ sc.metadata.confidence.data) :
    parseScenarioSections (formatScenario sc) =
      { context := sc.context, steps := sc.steps,
        expected := sc.expected } := by
  have hctxItems : ∀ it ∈ sc.context, isCleanItem it.data = true :=
    fun it h => hitems it (by simp [h])
  have hstepItems : ∀ it ∈ sc.steps, isCleanItem it.data = true :=
    fun it h => hitems it (by simp [h])
  have hexpItems : ∀ it ∈ sc.expected, isCleanItem it.data = true :=
    fun it h => hitems it (by simp [h])
  have hctxMark : ∀ it ∈ sc.context, numberedMarkerSplit it.data = none :=
    fun it h => hmarkers it (by simp [h])
  have hexpMark : ∀ it ∈ sc.expected, numberedMarkerSplit it.data = none :=
    fun it h => hmarkers it (by simp [h])
  have hctxmap : (sc.context.map fun item => "- " ++ item).map (·.data) =
      sc.context.map fun it => '-' :: ' ' :: it.data := by
    rw [List.map_map]
    exact List.map_congr_left fun a _ => dash_data a
  have hexpmap : (sc.expected.map fun item => "- " ++ item).map (·.data) =
      sc.expected.map fun it => '-' :: ' ' :: it.data := by
    rw [List.map_map]
    exact List.map_congr_left fun a _ => dash_data a
  have hL0 : (formatLines sc).map (·.data) =
      "---".data ::
      ("priority: ".data ++ sc.metadata.priority.data) ::
      ("type: ".data ++ sc.metadata.type.data) ::
      ("confidence: ".data ++ sc.metadata.confidence.data) ::
      "---".data :: [] :: (headingLine sc).data :: [] ::
      "## Context".data ::
      ((sc.context.map fun it => '-' :: ' ' :: it.data) ++
        [] :: "## Steps".data ::
        ((numberSteps 1 sc.steps).map (·.data) ++
          [] :: "## Expected".data ::
          ((sc.expected.map fun it => '-' :: ' ' :: it.data) ++ [[]]))) := by
    simp only [formatLines, List.map_append, List.map_cons, List.map_nil,
      List.cons_append, List.nil_append, List.append_assoc,
      String.data_append, hctxmap, hexpmap]
  have hdashnl : ∀ it : String, isCleanItem it.data = true →
      '\n' ∉ ('-' :: ' ' :: it.data) := by
    intro it hit hm
    rcases List.mem_cons.mp hm with h1 | hm
    · exact absurd h1.symm (by decide)
    · rcases List.mem_cons.mp hm with h1 | hm
      · exact absurd h1.symm (by decide)
      · exact clean_no_nl hit hm
  have hall : ∀ l ∈ (formatLines sc).map (·.data), '\n' ∉ l := by
    rw [hL0]
    intro l hl
    rcases List.mem_cons.mp hl with rfl | hl
    · decide
    rcases List.mem_cons.mp hl with rfl | hl
    · intro hm
      rcases List.mem_append.mp hm with hm | hm
      · revert hm; decide
      · exact hpnl hm
    rcases List.mem_cons.mp hl with rfl | hl
    · intro hm
      rcases List.mem_append.mp hm with hm | hm
      · revert hm; decide
      · exact htnl hm
    rcases List.mem_cons.mp hl with rfl | hl
    · intro hm
      rcases List.mem_append.mp hm with hm | hm
      · revert hm; decide
      · exact hcnl hm
    rcases List.mem_cons.mp hl with rfl | hl
    · decide
    rcases List.mem_cons.mp hl with rfl | hl
    · simp
    rcases List.mem_cons.mp hl with rfl | hl
    · exact hheadnl
    rcases List.mem_cons.mp hl with rfl | hl
    · simp
    rcases List.mem_cons.mp hl with rfl | hl
    · decide
    rcases List.mem_append.mp hl with hl | hl
    · obtain ⟨it, hit, rfl⟩ := List.mem_map.mp hl
      exact hdashnl it (hctxItems it hit)
    rcases List.mem_cons.mp hl with rfl | hl
    · simp
    rcases List.mem_cons.mp hl with rfl | hl
    · decide
    rcases List.mem_append.mp hl with hl | hl
    · exact numberSteps_no_nl 1 sc.steps hstepItems l hl
    rcases List.mem_cons.mp hl with rfl | hl
    · simp
    rcases List.mem_cons.mp hl with rfl | hl
    · decide
    rcases List.mem_append.mp hl with hl | hl
    · obtain ⟨it, hit, rfl⟩ := List.mem_map.mp hl
      exact hdashnl it (hexpItems it hit)
    rcases List.mem_cons.mp hl with rfl | hl
    · simp
    simp at hl
  have hsplit : splitCharsNl (formatScenario sc).data =
      (formatLines sc).map (·.data) := by
    rw [show (formatScenario sc).data =
      joinLinesChars ((formatLines sc).map (·.data)) from rfl]
    exact splitCharsNl_joinLinesChars (by simp [formatLines]) hall
  have hcontent : dropFrontmatter (splitCharsNl (formatScenario sc).data) =
      [] :: (headingLine sc).data :: [] :: "## Context".data ::
      ((sc.context.map fun it => '-' :: ' ' :: it.data) ++
        [] :: "## Steps".data ::
        ((numberSteps 1 sc.steps).map (·.data) ++
          [] :: "## Expected".data ::
          ((sc.expected.map fun it => '-' :: ' ' :: it.data) ++ [[]]))) := by
    rw [hsplit, hL0]
    exact dropFrontmatter_five
      (prefixed_ne_dashes (by decide))
      (prefixed_ne_dashes (by decide))
      (prefixed_ne_dashes (by decide))
  have hheadf : ∀ name, isSectionHeaderLine name (headingLine sc).data = false := by
    intro name
    rw [headingLine_shape]
    exact isSectionHeaderLine_false_head2 (by decide)
  have hctxne : (sc.context.map fun it => '-' :: ' ' :: it.data) ≠ [] := by
    simpa using hctx
  have hexpne : (sc.expected.map fun it => '-' :: ' ' :: it.data) ≠ [] := by
    simpa using hexp
  have hstepne : (numberSteps 1 sc.steps).map (·.data) ≠ [] := by
    cases hs : sc.steps with
    | nil => exact absurd hs hsteps
    | cons a l => simp [numberSteps]
  have hstepF : ∀ l ∈ (numberSteps 1 sc.steps).map (·.data),
      l.all isWsChar = false ∧ isBoundaryLine l = false ∧
        ∀ name, isSectionHeaderLine name l = false := by
    intro l hl
    obtain ⟨d, rest, rfl, hd⟩ := numberSteps_shape 1 sc.steps l hl
    obtain ⟨hws, hhash, -, -, -⟩ := digit_props hd
    exact ⟨by simp [List.all_cons, hws],
      isBoundaryLine_false_head hhash,
      fun _ => isSectionHeaderLine_false_head hhash⟩
  have hcxt : extractSection (dropFrontmatter
      (splitCharsNl (formatScenario sc).data)) "Context" = sc.context := by
    rw [hcontent]
    rw [show ([] :: (headingLine sc).data :: [] :: "## Context".data ::
      ((sc.context.map fun it => '-' :: ' ' :: it.data) ++
        [] :: "## Steps".data ::
        ((numberSteps 1 sc.steps).map (·.data) ++
          [] :: "## Expected".data ::
          ((sc.expected.map fun it => '-' :: ' ' :: it.data) ++ [[]])))) =
      ([[], (headingLine sc).data, []] ++ "## Context".data ::
        ((sc.context.map fun it => '-' :: ' ' :: it.data) ++ [[]] ++
          ("## Steps".data ::
            ((numberSteps 1 sc.steps).map (·.data) ++
              [] :: "## Expected".data ::
              ((sc.expected.map fun it => '-' :: ' ' :: it.data) ++ [[]])))))
      from by simp]
    refine extractSection_spec "Context" _ _ _ _ _ ?_ (by decide) hctxne
      ?_ ?_ (Or.inr ⟨_, _, rfl, by decide⟩)
      (bullet_lines_processed sc.context
        fun it h => ⟨hctxItems it h, hctxMark it h⟩)
    · intro x hx
      simp only [List.mem_cons, List.not_mem_nil, or_false] at hx
      rcases hx with rfl | rfl | rfl
      · rfl
      · exact hheadf _
      · rfl
    · intro l hl
      obtain ⟨it, -, rfl⟩ := List.mem_map.mp hl
      exact (dash_line_props it.data).1
    · intro l hl
      obtain ⟨it, -, rfl⟩ := List.mem_map.mp hl
      exact (dash_line_props it.data).2.1
  have hstp : extractSection (dropFrontmatter
      (splitCharsNl (formatScenario sc).data)) "Steps" = sc.steps := by
    rw [hcontent]
    rw [show ([] :: (headingLine sc).data :: [] :: "## Context".data ::
      ((sc.context.map fun it => '-' :: ' ' :: it.data) ++
        [] :: "## Steps".data ::
        ((numberSteps 1 sc.steps).map (·.data) ++
          [] :: "## Expected".data ::
          ((sc.expected.map fun it => '-' :: ' ' :: it.data) ++ [[]])))) =
      (([[], (headingLine sc).data, [], "## Context".data] ++
        ((sc.context.map fun it => '-' :: ' ' :: it.data) ++ [[]])) ++
        "## Steps".data ::
        ((numberSteps 1 sc.steps).map (·.data) ++ [[]] ++
          ("## Expected".data ::
            ((sc.expected.map fun it => '-' :: ' ' :: it.data) ++ [[]]))))
      from by simp]
    refine extractSection_spec "Steps" _ _ _ _ _ ?_ (by decide) hstepne
      ?_ ?_ (Or.inr ⟨_, _, rfl, by decide⟩)
      (step_lines_processed 1 sc.steps hstepItems)
    · intro x hx
      rcases List.mem_append.mp hx with hx | hx
      · simp only [List.mem_cons, List.not_mem_nil, or_false] at hx
        rcases hx with rfl | rfl | rfl | rfl
        · rfl
        · exact hheadf _
        · rfl
        · decide
      · rcases List.mem_append.mp hx with hx | hx
        · obtain ⟨it, -, rfl⟩ := List.mem_map.mp hx
          exact (dash_line_props it.data).2.2 _
        · simp only [List.mem_cons, List.not_mem_nil, or_false] at hx
          subst hx
          rfl
    · intro l hl
      exact (hstepF l hl).1
    · intro l hl
      exact (hstepF l hl).2.1
  have hexpt : extractSection (dropFrontmatter
      (splitCharsNl (formatScenario sc).data)) "Expected" = sc.expected := by
    rw [hcontent]
    rw [show ([] :: (headingLine sc).data :: [] :: "## Context".data ::
      ((sc.context.map fun it => '-' :: ' ' :: it.data) ++
        [] :: "## Steps".data ::
        ((numberSteps 1 sc.steps).map (·.data) ++
          [] :: "## Expected".data ::
          ((sc.expected.map fun it => '-' :: ' ' :: it.data) ++ [[]])))) =
      ((([[], (headingLine sc).data, [], "## Context".data] ++
        ((sc.context.map fun it => '-' :: ' ' :: it.data) ++
          [[], "## Steps".data])) ++
        ((numberSteps 1 sc.steps).map (·.data) ++ [[]])) ++
        "## Expected".data ::
        ((sc.expected.map fun it => '-' :: ' ' :: it.data) ++ [[]] ++ []))
      from by simp]
    refine extractSection_spec "Expected" _ _ _ _ _ ?_ (by decide) hexpne
      ?_ ?_ (Or.inl rfl)
      (bullet_lines_processed sc.expected
        fun it h => ⟨hexpItems it h, hexpMark it h⟩)
    · intro x hx
      rcases List.mem_append.mp hx with hx | hx
      · rcases List.mem_append.mp hx with hx | hx
        · simp only [List.mem_cons, List.not_mem_nil, or_false] at hx
          rcases hx with rfl | rfl | rfl | rfl
          · rfl
          · exact hheadf _
          · rfl
          · decide
        · rcases List.mem_append.mp hx with hx | hx
          · obtain ⟨it, -, rfl⟩ := List.mem_map.mp hx
            exact (dash_line_props it.data).2.2 _
          · simp only [List.mem_cons, List.not_mem_nil, or_false] at hx
            rcases hx with rfl | rfl
            · rfl
            · decide
      · rcases List.mem_append.mp hx with hx | hx
        · exact (hstepF x hx).2.2 _
        · simp only [List.mem_cons, List.not_mem_nil, or_false] at hx
          subst hx
          rfl
    · intro l hl
      obtain ⟨it, -, rfl⟩ := List.mem_map.mp hl
      exact (dash_line_props it.data).1
    · intro l hl
      obtain ⟨it, -, rfl⟩ := List.mem_map.mp hl
      exact (dash_line_props it.data).2.1
  show (⟨extractSection (dropFrontmatter
      (splitCharsNl (formatScenario sc).data)) "Context",
    extractSection (dropFrontmatter
      (splitCharsNl (formatScenario sc).data)) "Steps",
    extractSection (dropFrontmatter
      (splitCharsNl (formatScenario sc).data)) "Expected"⟩ : ParsedSections) =
    ⟨sc.context, sc.steps, sc.expected⟩
  rw [hcxt, hstp, hexpt]

/-- C8 witness: the concrete sample scenario satisfies every hypothesis
of the round-trip theorem, and writing then parsing it reproduces its
context, steps and expected lists. -/
theorem C8_scenario_roundtrip_witness :
    parseScenarioSections (formatScenario sampleScenario) =
      { context := sampleScenario.context, steps := sampleScenario.steps,
        expected := sampleScenario.expected } :=
  C8_scenario_roundtrip sampleScenario (by decide) (by decide) (by decide)
    (by decide) (by decide) (by decide) (by decide) (by decide) (by decide)
    (by decide)

/-- C8 counterexample: a scenario whose context item is "1. two" does
not round trip — the parser strips the numbered-list marker even though
the writer never added one, so the parsed context is ["two"], not
["1. two"].  This refutes the claim's "independent of the bullet or
number markers used" for every scenario. -/
theorem C8_scenario_roundtrip_counterexample :
    (parseScenarioSections (formatScenario numberedItemScenario)).context
        = ["two"] ∧
      numberedItemScenario.context = ["1. two"] ∧
      (["two"] : List String) ≠ ["1. two"] :=
  ⟨by decide, rfl, by decide⟩

end Litmus
